import Mathlib

/-!
# RTChat: presence registry and message routing

A shallow embedding of `src/server/server.js`: the module-level variables
(`connectedUsers`, `inMemoryGroups`, `inMemoryMessages`, `inMemoryUsers`), the
socket handlers registered in `io.on('connection', ...)`, the group routes, the
registration route, `createDemoUser`, and the two middlewares that verify the
session credential; and of `handleSendMessage` of
`src/client/src/components/Chat.js`.

Conventions of the embedding.

* The durable store (mongoose) is outside the program.  Every call into it is a
  parameter of the handler that makes it: what `Group.findById` did
  (`DbResult`), whether a `save()` threw (`saveThrows`).  The handler records
  the durable writes it attempted in `Outcome.dbWrites`.  `jwt.verify` and
  `bcrypt.hash` are parameters in the same way.  `groupFindById` says which
  outcomes a lookup by id can have: an id that is no ObjectId makes it throw.
* `new Date()` and `Date.now()` are the parameter `now`.
* A handler is one function from the state before to the state after, with the
  list of events it emitted in program order: its `await`s are taken without
  another handler running in between.
* `io.to(id).emit` targets the room `id`; a socket is in the room named by its
  own id and the program never joins another room.  `socket.emit` targets the
  socket, `io.emit` every socket.
-/

namespace RTChat

/-! ## Data model -/

/-- The verified token payload, `socket.user` and `req.user`. -/
structure User where
  id : String
  username : String
deriving DecidableEq, Repr

/-- A socket.io connection after the `io.use` handshake. -/
structure Socket where
  id : String
  user : User
deriving DecidableEq, Repr

/-- The value stored in `connectedUsers` for an identity. -/
structure ConnectedUser where
  id : String
  username : String
  socketId : String
deriving DecidableEq, Repr

/-- A group, as an element of `inMemoryGroups` or as a `Group` document. -/
structure Group where
  id : String
  name : String
  description : Option String
  members : List String
  createdAt : Option Nat
deriving DecidableEq, Repr

/-- The `message` object built by the two message handlers. -/
structure Message where
  senderId : String
  senderUsername : String
  recipientId : String
  content : String
  timestamp : Nat
  isGroupMessage : Bool
deriving DecidableEq, Repr

/-- The fields given to `new Message({...})` before `save()`. -/
structure MessageDoc where
  senderId : String
  recipientId : String
  content : String
  isGroupMessage : Bool
deriving DecidableEq, Repr

/-- An element of `inMemoryUsers`. -/
structure StoredUser where
  id : String
  username : String
  password : String
deriving DecidableEq, Repr

/-! ## The JavaScript `Map` behind `connectedUsers` -/

/-- A `Map` with string keys, as its entries in insertion order. -/
abbrev JSMap (β : Type) := List (String × β)

namespace JSMap

/-- `map.get(k)`. -/
def get {β : Type} (m : JSMap β) (k : String) : Option β :=
  match m with
  | [] => none
  | (k0, v) :: rest => if k0 = k then some v else get rest k

/-- `map.set(k, v)`: an existing key keeps its place and takes the new value, a
new key goes last. -/
def set {β : Type} (m : JSMap β) (k : String) (v : β) : JSMap β :=
  match m with
  | [] => [(k, v)]
  | (k0, v0) :: rest => if k0 = k then (k, v) :: rest else (k0, v0) :: set rest k v

/-- `map.delete(k)`. -/
def delete {β : Type} (m : JSMap β) (k : String) : JSMap β :=
  m.filter (fun p => decide (p.1 ≠ k))

/-- `Array.from(map.values())`. -/
def values {β : Type} (m : JSMap β) : List β :=
  m.map (fun p => p.2)

/-- The keys, in insertion order. -/
def keys {β : Type} (m : JSMap β) : List String :=
  m.map (fun p => p.1)

end JSMap

/-! ## State, emitted events, outcomes -/

/-- The module-level variables of `server.js`. -/
structure ServerState where
  inMemoryUsers : List StoredUser
  inMemoryMessages : List Message
  inMemoryGroups : List Group
  connectedUsers : JSMap ConnectedUser
deriving DecidableEq, Repr

/-- The `inMemoryGroups` literal. -/
def initialGroups : List Group :=
  [{ id := "everyone", name := "Everyone",
     description := some "Public group for all users",
     members := [], createdAt := none }]

/-- The state when the module has been loaded. -/
def ServerState.initial : ServerState :=
  { inMemoryUsers := [], inMemoryMessages := [],
    inMemoryGroups := initialGroups, connectedUsers := [] }

/-- Where an emit goes: `io.emit`, `io.to(room).emit`, `socket.emit`. -/
inductive Target where
  | all
  | room (id : String)
  | socket (id : String)
deriving DecidableEq, Repr

/-- What an emit carries. -/
inductive Payload where
  | users (roster : List ConnectedUser)
  | groups (groups : List Group)
  | message (message : Message)
  | error (message : String)
deriving DecidableEq, Repr

/-- One call of `emit`. -/
structure Emit where
  target : Target
  event : String
  payload : Payload
deriving DecidableEq, Repr

/-- A write attempted on the durable store, and whether it went through. -/
inductive DbWrite where
  | message (doc : MessageDoc) (ok : Bool)
  | group (doc : Group) (ok : Bool)
  | user (doc : StoredUser) (ok : Bool)
deriving DecidableEq, Repr

/-- What `jwt.sign(payload, secret, { expiresIn })` is given; the string that it
returns is made outside the program. -/
structure TokenRequest where
  payload : User
  expiresIn : String
deriving DecidableEq, Repr

/-- The body of an HTTP answer. -/
inductive Body where
  | message (message : String)
  | group (group : Group)
  | session (token : TokenRequest) (userId : String) (username : String)
deriving DecidableEq, Repr

/-- An HTTP answer, `res.status(s).json(body)`. -/
structure Response where
  status : Nat
  body : Body
deriving DecidableEq, Repr

/-- What a handler did: the state it left, its emits in program order, the
durable writes it attempted, and its HTTP answer if it is a route. -/
structure Outcome where
  state : ServerState
  emits : List Emit
  dbWrites : List DbWrite
  response : Option Response
deriving DecidableEq, Repr

/-- What an awaited read of the durable store did. -/
inductive DbResult (α : Type) where
  | threw
  | returned (value : α)
deriving DecidableEq, Repr

/-- Does the socket with id `sid` get this emit? -/
def Emit.reaches (e : Emit) (sid : String) : Bool :=
  match e.target with
  | .all => true
  | .room r => decide (r = sid)
  | .socket s => decide (s = sid)

/-- The emits that the socket with id `sid` gets, in order. -/
def receivedBy (sid : String) (emits : List Emit) : List Emit :=
  emits.filter (fun e => e.reaches sid)

/-- The emits of one event name that the socket with id `sid` gets. -/
def receivedEvent (sid : String) (event : String) (emits : List Emit) : List Emit :=
  (receivedBy sid emits).filter (fun e => decide (e.event = event))

/-- An emit without the timestamp of the message that it carries. -/
def Emit.withoutTimestamp (e : Emit) : Emit :=
  match e.payload with
  | .message m => { e with payload := .message { m with timestamp := 0 } }
  | _ => e

/-! ## Groups in memory -/

/-- `inMemoryGroups.find(g => g.id === groupId)`. -/
def findGroup (groups : List Group) (groupId : String) : Option Group :=
  groups.find? (fun g => decide (g.id = groupId))

/-- `group.members.push(userId)` on the object that `find` returned: the first
group with that id gets the new member, in place. -/
def pushMember (groups : List Group) (groupId : String) (userId : String) : List Group :=
  match groups with
  | [] => []
  | g :: rest =>
    if g.id = groupId then { g with members := g.members ++ [userId] } :: rest
    else g :: pushMember rest groupId userId

/-! ## The durable lookup of a group -/

/-- A hexadecimal digit. -/
def isHexDigit (c : Char) : Bool :=
  c.isDigit || (decide ('a' ≤ c) && decide (c ≤ 'f')) || (decide ('A' ≤ c) && decide (c ≤ 'F'))

/-- The strings that some version of mongoose casts to an ObjectId: 24
hexadecimal digits, and, for the older ones, any 12 characters. -/
def castsToObjectId (id : String) : Bool :=
  (id.length == 24 && id.data.all isHexDigit) || id.length == 12

/-- `Group.findById(groupId)` as mongoose runs it. The Group schema declares no
`_id`, so `_id` is an ObjectId and the query first casts `groupId` to one: a
string that is no ObjectId makes the query throw (a CastError) before the store
is asked, connected or not; otherwise the outcome is `store`, what the store
does with the query. -/
def groupFindById (groupId : String) (store : DbResult (Option Group)) :
    DbResult (Option Group) :=
  if castsToObjectId groupId then store else .threw

/-! ## Socket handlers -/

/-- The body of `io.on('connection', ...)` up to the registration of the
handlers. -/
def onConnection (st : ServerState) (socket : Socket) : Outcome :=
  let connectedUsers := st.connectedUsers.set socket.user.id
    { id := socket.user.id, username := socket.user.username, socketId := socket.id }
  let groups :=
    match findGroup st.inMemoryGroups "everyone" with
    | some everyoneGroup =>
      if everyoneGroup.members.contains socket.user.id then st.inMemoryGroups
      else pushMember st.inMemoryGroups "everyone" socket.user.id
    | none => st.inMemoryGroups
  { state := { st with connectedUsers := connectedUsers, inMemoryGroups := groups }
    emits := [⟨.all, "users", .users connectedUsers.values⟩,
              ⟨.socket socket.id, "groups", .groups groups⟩]
    dbWrites := []
    response := none }

/-- The handler `socket.on('disconnect', ...)`. -/
def onDisconnect (st : ServerState) (socket : Socket) : Outcome :=
  let connectedUsers := st.connectedUsers.delete socket.user.id
  { state := { st with connectedUsers := connectedUsers }
    emits := [⟨.all, "users", .users connectedUsers.values⟩]
    dbWrites := []
    response := none }

/-- The payload of a `private message` event. -/
structure PrivateMessageData where
  recipientId : String
  content : String
deriving DecidableEq, Repr

/-- The payload of a `group message` event. -/
structure GroupMessageData where
  groupId : String
  content : String
deriving DecidableEq, Repr

/-- The message object of the `private message` handler. -/
def privateMessageOf (socket : Socket) (data : PrivateMessageData) (now : Nat) : Message :=
  { senderId := socket.user.id, senderUsername := socket.user.username,
    recipientId := data.recipientId, content := data.content,
    timestamp := now, isGroupMessage := false }

/-- The handler `socket.on('private message', ...)`. -/
def onPrivateMessage (st : ServerState) (socket : Socket) (data : PrivateMessageData)
    (now : Nat) (saveThrows : Bool) : Outcome :=
  let message := privateMessageOf socket data now
  let newMessage : MessageDoc :=
    { senderId := socket.user.id, recipientId := data.recipientId,
      content := data.content, isGroupMessage := false }
  let st1 :=
    if saveThrows then { st with inMemoryMessages := st.inMemoryMessages ++ [message] }
    else st
  let toRecipient : List Emit :=
    match st1.connectedUsers.get data.recipientId with
    | some recipient => [⟨.room recipient.socketId, "private message", .message message⟩]
    | none => []
  { state := st1
    emits := toRecipient ++ [⟨.socket socket.id, "private message", .message message⟩]
    dbWrites := [.message newMessage (!saveThrows)]
    response := none }

/-- The group that the `group message` handler works with: what
`Group.findById` returned, or the in-memory group when it threw. -/
def lookupGroup (st : ServerState) (groupId : String)
    (found : DbResult (Option Group)) : Option Group :=
  match found with
  | .returned g => g
  | .threw => findGroup st.inMemoryGroups groupId

/-- The loop `group.members.forEach(...)` of the `group message` handler. -/
def fanOut (members : List String) (connectedUsers : JSMap ConnectedUser)
    (message : Message) : List Emit :=
  match members with
  | [] => []
  | memberId :: rest =>
    match connectedUsers.get memberId with
    | some member =>
      ⟨.room member.socketId, "group message", .message message⟩
        :: fanOut rest connectedUsers message
    | none => fanOut rest connectedUsers message

/-- The message object of the `group message` handler. -/
def groupMessageOf (socket : Socket) (data : GroupMessageData) (now : Nat) : Message :=
  { senderId := socket.user.id, senderUsername := socket.user.username,
    recipientId := data.groupId, content := data.content,
    timestamp := now, isGroupMessage := true }

/-- The handler `socket.on('group message', ...)`. -/
def onGroupMessage (st : ServerState) (socket : Socket) (data : GroupMessageData)
    (now : Nat) (found : DbResult (Option Group)) (saveThrows : Bool) : Outcome :=
  match lookupGroup st data.groupId found with
  | none =>
    { state := st
      emits := [⟨.socket socket.id, "error", .error "Group not found"⟩]
      dbWrites := [], response := none }
  | some group =>
    if group.members.contains socket.user.id then
      let message := groupMessageOf socket data now
      let newMessage : MessageDoc :=
        { senderId := socket.user.id, recipientId := data.groupId,
          content := data.content, isGroupMessage := true }
      let st1 :=
        if saveThrows then { st with inMemoryMessages := st.inMemoryMessages ++ [message] }
        else st
      { state := st1
        emits := fanOut group.members st1.connectedUsers message
        dbWrites := [.message newMessage (!saveThrows)]
        response := none }
    else
      { state := st
        emits := [⟨.socket socket.id, "error", .error "You are not a member of this group"⟩]
        dbWrites := [], response := none }

/-- A message handler rejected the request: it emitted an `error` event. -/
def Outcome.rejected (o : Outcome) : Bool :=
  o.emits.any (fun e => decide (e.event = "error"))

/-! ## Group routes -/

/-- The body of `POST /api/groups`. -/
structure CreateGroupBody where
  name : Option String
  description : Option String
deriving DecidableEq, Repr

/-- The route `POST /api/groups`, after `authenticateJWT` set `req.user`.
`documentId` is the id that mongoose gives the new document. -/
def createGroup (st : ServerState) (user : User) (body : CreateGroupBody)
    (now : Nat) (documentId : String) (saveThrows : Bool) : Outcome :=
  match body.name with
  | none =>
    { state := st, emits := [], dbWrites := []
      response := some ⟨400, .message "Group name is required"⟩ }
  | some name =>
    if name = "" then
      { state := st, emits := [], dbWrites := []
        response := some ⟨400, .message "Group name is required"⟩ }
    else
      let group : Group :=
        { id := documentId, name := name, description := body.description,
          members := [user.id], createdAt := some now }
      if saveThrows then
        let newGroup : Group :=
          { id := toString now, name := name, description := body.description,
            members := [user.id], createdAt := some now }
        { state := { st with inMemoryGroups := st.inMemoryGroups ++ [newGroup] }
          emits := [], dbWrites := [.group group false]
          response := some ⟨201, .group newGroup⟩ }
      else
        { state := st, emits := [], dbWrites := [.group group true]
          response := some ⟨201, .group group⟩ }

/-- The `catch (dbError)` block of the join route: the join on `inMemoryGroups`. -/
def joinInMemory (st : ServerState) (user : User) (groupId : String)
    (dbWrites : List DbWrite) : Outcome :=
  match findGroup st.inMemoryGroups groupId with
  | none =>
    { state := st, emits := [], dbWrites := dbWrites
      response := some ⟨404, .message "Group not found"⟩ }
  | some group =>
    if group.members.contains user.id then
      { state := st, emits := [], dbWrites := dbWrites
        response := some ⟨200, .group group⟩ }
    else
      { state := { st with inMemoryGroups := pushMember st.inMemoryGroups groupId user.id }
        emits := [], dbWrites := dbWrites
        response := some ⟨200, .group { group with members := group.members ++ [user.id] }⟩ }

/-- The route `POST /api/groups/:groupId/join`, after `authenticateJWT` set
`req.user`. -/
def joinGroup (st : ServerState) (user : User) (groupId : String)
    (found : DbResult (Option Group)) (saveThrows : Bool) : Outcome :=
  match found with
  | .threw => joinInMemory st user groupId []
  | .returned none =>
    { state := st, emits := [], dbWrites := []
      response := some ⟨404, .message "Group not found"⟩ }
  | .returned (some group) =>
    if group.members.contains user.id then
      { state := st, emits := [], dbWrites := []
        response := some ⟨200, .group group⟩ }
    else
      let joined : Group := { group with members := group.members ++ [user.id] }
      if saveThrows then joinInMemory st user groupId [.group joined false]
      else
        { state := st, emits := [], dbWrites := [.group joined true]
          response := some ⟨200, .group joined⟩ }

/-! ## User routes -/

/-- The body of `POST /api/register`; a request may come without a password. -/
structure RegisterBody where
  username : String
  password : Option String
deriving DecidableEq, Repr

/-- `inMemoryUsers.find(u => u.username === username)`. -/
def findUser (users : List StoredUser) (username : String) : Option StoredUser :=
  users.find? (fun u => decide (u.username = username))

/-- The user that the registration route and `createDemoUser` work with: what
`User.findOne` returned, or the in-memory user when it threw. -/
def lookupUser (st : ServerState) (username : String)
    (found : DbResult (Option StoredUser)) : Option StoredUser :=
  match found with
  | .returned u => u
  | .threw => findUser st.inMemoryUsers username

/-- The route `POST /api/register`. `found` is what `User.findOne` did,
`hashedPassword` what `bcrypt.hash` returned, `documentId` the id that mongoose
gives the new document. `bcrypt.hash` throws on a missing password, which the
outer `catch` answers with 500. -/
def register (st : ServerState) (body : RegisterBody) (found : DbResult (Option StoredUser))
    (hashedPassword : String) (now : Nat) (documentId : String) (saveThrows : Bool) :
    Outcome :=
  match lookupUser st body.username found with
  | some _ =>
    { state := st, emits := [], dbWrites := []
      response := some ⟨400, .message "User already exists"⟩ }
  | none =>
    match body.password with
    | none =>
      { state := st, emits := [], dbWrites := []
        response := some ⟨500, .message "Server error"⟩ }
    | some _ =>
      let doc : StoredUser :=
        { id := documentId, username := body.username, password := hashedPassword }
      if saveThrows then
        let newUser : StoredUser :=
          { id := toString now, username := body.username, password := hashedPassword }
        { state := { st with inMemoryUsers := st.inMemoryUsers ++ [newUser] }
          emits := [], dbWrites := [.user doc false]
          response := some ⟨201, .session ⟨⟨newUser.id, newUser.username⟩, "1h"⟩
            newUser.id newUser.username⟩ }
      else
        { state := st, emits := [], dbWrites := [.user doc true]
          response := some ⟨201, .session ⟨⟨doc.id, doc.username⟩, "1h"⟩
            doc.id doc.username⟩ }

/-- The assignment `inMemoryUsers[existingIndex] = newUser`, with `existingIndex`
the index of the first user named `'demo'`. -/
def replaceDemoUser (users : List StoredUser) (newUser : StoredUser) : List StoredUser :=
  match users with
  | [] => []
  | u :: rest =>
    if u.username = "demo" then newUser :: rest else u :: replaceDemoUser rest newUser

/-- The function `createDemoUser`, which the server runs after it started to
listen. -/
def createDemoUser (st : ServerState) (found : DbResult (Option StoredUser))
    (hashedPassword : String) (documentId : String) (saveThrows : Bool) : Outcome :=
  match lookupUser st "demo" found with
  | some _ => { state := st, emits := [], dbWrites := [], response := none }
  | none =>
    let doc : StoredUser := { id := documentId, username := "demo", password := hashedPassword }
    if saveThrows then
      let newUser : StoredUser :=
        { id := "demo-user", username := "demo", password := hashedPassword }
      let users :=
        if st.inMemoryUsers.any (fun u => decide (u.username = "demo")) then
          replaceDemoUser st.inMemoryUsers newUser
        else st.inMemoryUsers ++ [newUser]
      { state := { st with inMemoryUsers := users }
        emits := [], dbWrites := [.user doc false], response := none }
    else
      { state := st, emits := [], dbWrites := [.user doc true], response := none }

/-! ## Verification of the session credential -/

/-- What `authenticateJWT` did: it called `next()` with `req.user` set, or it
answered the request itself. -/
inductive AuthResult where
  | next (user : User)
  | answered (response : Response)
deriving DecidableEq, Repr

/-- `chars.split(' ')[1]`: what stands between the first space and the next one,
undefined when there is no space. -/
def secondPart (chars : List Char) : Option (List Char) :=
  match chars.dropWhile (fun c => decide (c ≠ ' ')) with
  | [] => none
  | _ :: rest => some (rest.takeWhile (fun c => decide (c ≠ ' ')))

/-- `req.headers.authorization?.split(' ')[1]`. -/
def bearerToken (authorization : Option String) : Option String :=
  match authorization with
  | none => none
  | some header => (secondPart header.data).map String.mk

/-- The middleware `authenticateJWT`. `jwtVerify token` is what
`jwt.verify(token, secret)` returns, `none` when it throws. -/
def authenticateJWT (authorization : Option String) (jwtVerify : String → Option User) :
    AuthResult :=
  match bearerToken authorization with
  | none => .answered ⟨401, .message "Unauthorized"⟩
  | some token =>
    if token = "" then .answered ⟨401, .message "Unauthorized"⟩
    else
      match jwtVerify token with
      | some user => .next user
      | none => .answered ⟨403, .message "Invalid token"⟩

/-- A route `app.post(path, authenticateJWT, handler)`: the handler runs with
`req.user` when the middleware called `next()`. -/
def protectedRoute (st : ServerState) (authorization : Option String)
    (jwtVerify : String → Option User) (handler : User → Outcome) : Outcome :=
  match authenticateJWT authorization jwtVerify with
  | .next user => handler user
  | .answered response =>
    { state := st, emits := [], dbWrites := [], response := some response }

/-- The tokens of a socket handshake, `socket.handshake.auth.token` and
`socket.handshake.query.token`. -/
structure Handshake where
  authToken : Option String
  queryToken : Option String
deriving DecidableEq, Repr

/-- What the middleware `io.use` did: `next()` with `socket.user` set, or
`next(new Error(message))`. -/
inductive HandshakeResult where
  | accepted (user : User)
  | refused (message : String)
deriving DecidableEq, Repr

/-- `socket.handshake.auth.token || socket.handshake.query.token`. -/
def handshakeToken (handshake : Handshake) : Option String :=
  match handshake.authToken with
  | none => handshake.queryToken
  | some token => if token = "" then handshake.queryToken else some token

/-- The middleware given to `io.use`. -/
def ioUse (handshake : Handshake) (jwtVerify : String → Option User) : HandshakeResult :=
  match handshakeToken handshake with
  | none => .refused "Authentication error"
  | some token =>
    if token = "" then .refused "Authentication error"
    else
      match jwtVerify token with
      | some user => .accepted user
      | none => .refused "Authentication error"

/-- A connection attempt: socket.io runs the `connection` handler for the socket
when the middleware accepted it, and nothing of the program otherwise. -/
def connect (st : ServerState) (socketId : String) (handshake : Handshake)
    (jwtVerify : String → Option User) : Outcome :=
  match ioUse handshake jwtVerify with
  | .accepted user => onConnection st ⟨socketId, user⟩
  | .refused _ => { state := st, emits := [], dbWrites := [], response := none }

/-- The group document in the durable store after a handler ran on it: the
document of the last group write that went through, or the document as it was. -/
def storedGroupAfter (doc : Group) (dbWrites : List DbWrite) : Group :=
  match dbWrites with
  | [] => doc
  | .group saved true :: rest => storedGroupAfter saved rest
  | _ :: rest => storedGroupAfter doc rest

/-! ## The server as a transition system -/

/-- The server's variables together with the sockets that socket.io holds open. -/
structure World where
  server : ServerState
  sockets : List Socket
deriving DecidableEq, Repr

/-- The world when the module has been loaded: no socket is open. -/
def World.initial : World :=
  { server := ServerState.initial, sockets := [] }

/-- What can happen to the server: a socket event, a request on a group route or
on the registration route, the creation of the demo user,
with what the durable store and the clock do during it. -/
inductive Event where
  | connection (socket : Socket)
  | disconnect (socket : Socket)
  | privateMessage (socket : Socket) (data : PrivateMessageData) (now : Nat)
      (saveThrows : Bool)
  | groupMessage (socket : Socket) (data : GroupMessageData) (now : Nat)
      (found : DbResult (Option Group)) (saveThrows : Bool)
  | createGroup (user : User) (body : CreateGroupBody) (now : Nat)
      (documentId : String) (saveThrows : Bool)
  | joinGroup (user : User) (groupId : String) (found : DbResult (Option Group))
      (saveThrows : Bool)
  | register (body : RegisterBody) (found : DbResult (Option StoredUser))
      (hashedPassword : String) (now : Nat) (documentId : String) (saveThrows : Bool)
  | createDemoUser (found : DbResult (Option StoredUser)) (hashedPassword : String)
      (documentId : String) (saveThrows : Bool)
deriving DecidableEq, Repr

/-- The handler that an event runs. -/
def handle (st : ServerState) : Event → Outcome
  | .connection socket => onConnection st socket
  | .disconnect socket => onDisconnect st socket
  | .privateMessage socket data now saveThrows =>
    onPrivateMessage st socket data now saveThrows
  | .groupMessage socket data now found saveThrows =>
    onGroupMessage st socket data now found saveThrows
  | .createGroup user body now documentId saveThrows =>
    createGroup st user body now documentId saveThrows
  | .joinGroup user groupId found saveThrows =>
    joinGroup st user groupId found saveThrows
  | .register body found hashedPassword now documentId saveThrows =>
    register st body found hashedPassword now documentId saveThrows
  | .createDemoUser found hashedPassword documentId saveThrows =>
    createDemoUser st found hashedPassword documentId saveThrows

/-- When an event can happen: a new socket has an id that no open socket has,
and the handlers of a socket run only while it is open. -/
def Event.enabled (w : World) : Event → Bool
  | .connection socket => w.sockets.all (fun s => decide (s.id ≠ socket.id))
  | .disconnect socket => decide (socket ∈ w.sockets)
  | .privateMessage socket _ _ _ => decide (socket ∈ w.sockets)
  | .groupMessage socket _ _ _ _ => decide (socket ∈ w.sockets)
  | .createGroup _ _ _ _ _ => true
  | .joinGroup _ _ _ _ => true
  | .register _ _ _ _ _ _ => true
  | .createDemoUser _ _ _ _ => true

/-- The open sockets after an event. -/
def socketsAfter (sockets : List Socket) : Event → List Socket
  | .connection socket => sockets ++ [socket]
  | .disconnect socket => sockets.erase socket
  | _ => sockets

/-- The world after an event. -/
def World.after (w : World) (ev : Event) : World :=
  { server := (handle w.server ev).state, sockets := socketsAfter w.sockets ev }

/-- The world after a list of events, `none` when one of them cannot happen. -/
def World.run (w : World) : List Event → Option World
  | [] => some w
  | ev :: rest => if ev.enabled w then (w.after ev).run rest else none

/-- The worlds that the server can be in. -/
inductive Reachable : World → Prop where
  | initial : Reachable World.initial
  | step {w : World} (ev : Event) : Reachable w → ev.enabled w = true →
      Reachable (w.after ev)

/-! ## Message events as they arrive -/

/-- The `data` object of a `private message` event as a client sent it: the two
fields that the handler reads and the other fields that it carries, by name. -/
structure PrivateMessageWire where
  recipientId : String
  content : String
  others : List (String × String)
deriving DecidableEq, Repr

/-- The `data` object of a `group message` event as a client sent it. -/
structure GroupMessageWire where
  groupId : String
  content : String
  others : List (String × String)
deriving DecidableEq, Repr

/-- `const { recipientId, content } = data`. -/
def PrivateMessageWire.destructure (data : PrivateMessageWire) : PrivateMessageData :=
  { recipientId := data.recipientId, content := data.content }

/-- `const { groupId, content } = data`. -/
def GroupMessageWire.destructure (data : GroupMessageWire) : GroupMessageData :=
  { groupId := data.groupId, content := data.content }

/-- The `private message` handler on the object that arrived. -/
def receivePrivateMessage (st : ServerState) (socket : Socket) (data : PrivateMessageWire)
    (now : Nat) (saveThrows : Bool) : Outcome :=
  onPrivateMessage st socket data.destructure now saveThrows

/-- The `group message` handler on the object that arrived. -/
def receiveGroupMessage (st : ServerState) (socket : Socket) (data : GroupMessageWire)
    (now : Nat) (found : DbResult (Option Group)) (saveThrows : Bool) : Outcome :=
  onGroupMessage st socket data.destructure now found saveThrows

/-- What an outcome saved and emitted as messages has `user` as its sender: every
message that an emit carries, every message document given to the durable save,
and every message that was added to `inMemoryMessages`. -/
def SenderIs (user : User) (st : ServerState) (out : Outcome) : Prop :=
  (∀ e ∈ out.emits, ∀ m, e.payload = .message m →
    m.senderId = user.id ∧ m.senderUsername = user.username) ∧
  (∀ write ∈ out.dbWrites, ∀ doc ok, write = .message doc ok → doc.senderId = user.id) ∧
  (∀ m ∈ out.state.inMemoryMessages, m ∈ st.inMemoryMessages ∨
    (m.senderId = user.id ∧ m.senderUsername = user.username))

/-! ## The client: `handleSendMessage` of `Chat.js` -/

/-- The characters that `String.prototype.trim` removes: the white space and the
line terminators of ECMAScript. -/
def isTrimmed (c : Char) : Bool :=
  let n := c.toNat
  n == 0x09 || n == 0x0A || n == 0x0B || n == 0x0C || n == 0x0D || n == 0x20 ||
  n == 0xA0 || n == 0x1680 || (decide (0x2000 ≤ n) && decide (n ≤ 0x200A)) ||
  n == 0x2028 || n == 0x2029 || n == 0x202F || n == 0x205F || n == 0x3000 || n == 0xFEFF

/-- `s.trim()`. -/
def jsTrim (s : String) : String :=
  String.mk ((s.data.dropWhile isTrimmed).reverse.dropWhile isTrimmed).reverse

/-- A user of the list, as the `users` event (`id`) or the users route of a
durable store (`_id`) gave it. -/
structure ClientUser where
  id : Option String
  _id : Option String
deriving DecidableEq, Repr

/-- A group of the list. -/
structure ClientGroup where
  id : Option String
deriving DecidableEq, Repr

/-- The state of the `Chat` component that `handleSendMessage` reads. -/
structure ChatState where
  newMessage : String
  tabValue : Nat
  selectedUser : Option ClientUser
  selectedGroup : Option ClientGroup
deriving DecidableEq, Repr

/-- The `messageData` object of an emit of the client. -/
inductive MessageData where
  | toUser (recipientId : Option String) (content : String)
  | toGroup (groupId : Option String) (content : String)
deriving DecidableEq, Repr

/-- One `socket.emit(event, messageData)` of the client. -/
structure ClientEmit where
  event : String
  messageData : MessageData
deriving DecidableEq, Repr

/-- `selectedUser.id || selectedUser._id`. -/
def ClientUser.idOrMongoId (user : ClientUser) : Option String :=
  match user.id with
  | none => user._id
  | some id => if id = "" then user._id else some id

/-- The emits of `handleSendMessage` once the draft passed the check. -/
def sendEmits (c : ChatState) : List ClientEmit :=
  match decide (c.tabValue = 0), c.selectedUser with
  | true, some selectedUser =>
    [⟨"private message", .toUser selectedUser.idOrMongoId c.newMessage⟩]
  | _, _ =>
    match decide (c.tabValue = 1), c.selectedGroup with
    | true, some selectedGroup => [⟨"group message", .toGroup selectedGroup.id c.newMessage⟩]
    | _, _ => []

/-- The handler `handleSendMessage`: what it emits on the socket and the state
that it leaves. The socket is set by the effect that also starts the loading of
the users and groups, so it is there whenever a user or a group is selected. -/
def handleSendMessage (c : ChatState) : List ClientEmit × ChatState :=
  if jsTrim c.newMessage = "" then ([], c)
  else (sendEmits c, { c with newMessage := "" })

/-! ## Properties kept by the handlers -/

/-- How a handler may change `inMemoryGroups`: not at all, by a push of a new
member on the group that `find` returned, or by a push of a new group with one
member. -/
inductive GroupsStep (groups : List Group) : List Group → Prop where
  | same : GroupsStep groups groups
  | push (groupId userId : String) (g : Group) :
      findGroup groups groupId = some g → userId ∉ g.members →
      GroupsStep groups (pushMember groups groupId userId)
  | create (g : Group) : g.members.Nodup → GroupsStep groups (groups ++ [g])

/-- The properties of `inMemoryGroups` that every handler keeps. -/
structure GroupsInv (groups : List Group) : Prop where
  members : ∀ g ∈ groups, g.members.Nodup
  everyone : ∃ g, findGroup groups "everyone" = some g

/-- The group that `find` returns for `'everyone'` has `userId` among its members. -/
def EveryoneHas (groups : List Group) (userId : String) : Prop :=
  ∃ g, findGroup groups "everyone" = some g ∧ userId ∈ g.members

/-- What holds in every world that the server can be in. -/
structure Inv (w : World) : Prop where
  socketIds : (w.sockets.map (fun s => s.id)).Nodup
  keys : w.server.connectedUsers.keys.Nodup
  entries : ∀ k e, (k, e) ∈ w.server.connectedUsers →
    e.id = k ∧ ∃ s ∈ w.sockets, s.id = e.socketId ∧ s.user.id = k
  groups : GroupsInv w.server.inMemoryGroups
  joined : ∀ s ∈ w.sockets, EveryoneHas w.server.inMemoryGroups s.user.id

/-! ## Sample sockets and worlds -/

/-- A first socket of the identity `u1`. -/
def sampleSocket1 : Socket := ⟨"s1", ⟨"u1", "alice"⟩⟩

/-- A socket of the identity `u2`. -/
def sampleSocket2 : Socket := ⟨"s2", ⟨"u2", "bob"⟩⟩

/-- A second socket of the identity `u1`. -/
def sampleSocket3 : Socket := ⟨"s3", ⟨"u1", "alice"⟩⟩

/-- The world after `u1` connected. -/
def sampleWorld1 : World := World.initial.after (.connection sampleSocket1)

/-- The world after `u1` and then `u2` connected. -/
def sampleWorld2 : World := sampleWorld1.after (.connection sampleSocket2)

/-! ## Facts about `JSMap` -/

theorem JSMap.get_set_self {β : Type} (m : JSMap β) (k : String) (v : β) :
    (m.set k v).get k = some v := by
  induction m with
  | nil => simp [JSMap.set, JSMap.get]
  | cons p rest ih =>
    obtain ⟨k0, v0⟩ := p
    by_cases h : k0 = k
    · simp [JSMap.set, JSMap.get, h]
    · simp [JSMap.set, JSMap.get, h, ih]

theorem JSMap.get_set_of_ne {β : Type} (m : JSMap β) (k k1 : String) (v : β)
    (hne : k ≠ k1) : (m.set k v).get k1 = m.get k1 := by
  induction m with
  | nil => simp [JSMap.set, JSMap.get, hne]
  | cons p rest ih =>
    obtain ⟨k0, v0⟩ := p
    by_cases h : k0 = k
    · subst h
      simp [JSMap.set, JSMap.get, hne]
    · by_cases h1 : k0 = k1
      · subst h1
        simp [JSMap.set, JSMap.get, h]
      · simp [JSMap.set, JSMap.get, h, h1, ih]

theorem JSMap.mem_of_get {β : Type} (m : JSMap β) (k : String) (v : β)
    (h : m.get k = some v) : (k, v) ∈ m := by
  induction m with
  | nil => simp [JSMap.get] at h
  | cons p rest ih =>
    obtain ⟨k0, v0⟩ := p
    by_cases h0 : k0 = k
    · simp [JSMap.get, h0] at h
      simp [h0, h]
    · simp [JSMap.get, h0] at h
      exact List.mem_cons_of_mem _ (ih h)

theorem JSMap.get_of_mem {β : Type} (m : JSMap β) (k : String) (v : β)
    (hnd : m.keys.Nodup) (h : (k, v) ∈ m) : m.get k = some v := by
  induction m with
  | nil => simp at h
  | cons p rest ih =>
    obtain ⟨k0, v0⟩ := p
    simp only [JSMap.keys, List.map_cons, List.nodup_cons] at hnd
    rcases List.mem_cons.mp h with heq | hmem
    · cases heq
      simp [JSMap.get]
    · have hne : k0 ≠ k := by
        intro h0
        apply hnd.1
        rw [h0]
        exact List.mem_map_of_mem (fun p => p.1) hmem
      simp only [JSMap.get, hne, if_false]
      exact ih hnd.2 hmem

theorem JSMap.get_eq_none_iff {β : Type} (m : JSMap β) (k : String) :
    m.get k = none ↔ k ∉ m.keys := by
  induction m with
  | nil => simp [JSMap.get, JSMap.keys]
  | cons p rest ih =>
    obtain ⟨k0, v0⟩ := p
    by_cases h0 : k0 = k
    · simp [JSMap.get, JSMap.keys, h0]
    · have h1 : ¬ k = k0 := fun h => h0 h.symm
      simp only [JSMap.get, h0, if_false, ih, JSMap.keys, List.map_cons, List.mem_cons, h1,
        false_or]

theorem JSMap.mem_set {β : Type} (m : JSMap β) (k : String) (v : β) (p : String × β)
    (h : p ∈ m.set k v) : p = (k, v) ∨ p ∈ m := by
  induction m with
  | nil =>
    simp [JSMap.set] at h
    exact Or.inl h
  | cons q rest ih =>
    obtain ⟨k0, v0⟩ := q
    by_cases h0 : k0 = k
    · simp only [JSMap.set, h0, if_true, List.mem_cons] at h
      rcases h with h | h
      · exact Or.inl h
      · exact Or.inr (List.mem_cons_of_mem _ h)
    · simp only [JSMap.set, h0, if_false, List.mem_cons] at h
      rcases h with h | h
      · right
        subst h
        exact List.mem_cons_self _ _
      · rcases ih h with h1 | h1
        · exact Or.inl h1
        · exact Or.inr (List.mem_cons_of_mem _ h1)

theorem JSMap.keys_set_nodup {β : Type} (m : JSMap β) (k : String) (v : β)
    (hnd : m.keys.Nodup) : (m.set k v).keys.Nodup := by
  induction m with
  | nil => simp [JSMap.set, JSMap.keys]
  | cons q rest ih =>
    obtain ⟨k0, v0⟩ := q
    simp only [JSMap.keys, List.map_cons, List.nodup_cons] at hnd
    by_cases h0 : k0 = k
    · subst h0
      simp only [JSMap.set, if_true, JSMap.keys, List.map_cons, List.nodup_cons]
      exact hnd
    · simp only [JSMap.set, h0, if_false, JSMap.keys, List.map_cons, List.nodup_cons]
      refine ⟨?_, ih hnd.2⟩
      intro hmem
      obtain ⟨p, hp, hpk⟩ := List.mem_map.mp hmem
      rcases JSMap.mem_set rest k v p hp with h1 | h1
      · rw [h1] at hpk
        exact h0 hpk.symm
      · exact hnd.1 (List.mem_map.mpr ⟨p, h1, hpk⟩)

theorem JSMap.filter_key_set {β : Type} (m : JSMap β) (k : String) (v : β)
    (hnd : m.keys.Nodup) :
    (m.set k v).filter (fun p => decide (p.1 = k)) = [(k, v)] := by
  induction m with
  | nil => simp [JSMap.set]
  | cons q rest ih =>
    obtain ⟨k0, v0⟩ := q
    simp only [JSMap.keys, List.map_cons, List.nodup_cons] at hnd
    by_cases h0 : k0 = k
    · subst h0
      simp only [JSMap.set, if_true, List.filter_cons, decide_True]
      rw [List.filter_eq_nil_iff.mpr]
      intro p hp hk
      simp only [decide_eq_true_eq] at hk
      exact hnd.1 (List.mem_map.mpr ⟨p, hp, hk⟩)
    · simp only [JSMap.set, h0, if_false, List.filter_cons, decide_False]
      exact ih hnd.2

theorem JSMap.keys_delete_nodup {β : Type} (m : JSMap β) (k : String)
    (hnd : m.keys.Nodup) : (m.delete k).keys.Nodup :=
  hnd.sublist (List.Sublist.map _ (List.filter_sublist _))

theorem JSMap.mem_delete {β : Type} (m : JSMap β) (k : String) (p : String × β) :
    p ∈ m.delete k ↔ p ∈ m ∧ p.1 ≠ k := by
  simp [JSMap.delete]

theorem JSMap.get_delete_self {β : Type} (m : JSMap β) (k : String) :
    (m.delete k).get k = none := by
  rw [JSMap.get_eq_none_iff]
  intro hmem
  obtain ⟨p, hp, hpk⟩ := List.mem_map.mp hmem
  exact ((JSMap.mem_delete m k p).mp hp).2 hpk

/-! ## Facts about the groups in memory -/

theorem findGroup_pushMember (groups : List Group) (groupId userId x : String) :
    findGroup (pushMember groups groupId userId) x =
      if x = groupId then
        (findGroup groups groupId).map (fun g => { g with members := g.members ++ [userId] })
      else findGroup groups x := by
  induction groups with
  | nil => simp [findGroup, pushMember]
  | cons g rest ih =>
    unfold findGroup at ih ⊢
    by_cases hg : g.id = groupId
    · by_cases hx : x = groupId
      · simp [pushMember, hg, hx]
      · have hgx : ¬ g.id = x := fun h => hx (h.symm.trans hg)
        have hgx1 : ¬ groupId = x := fun h => hx h.symm
        simp [pushMember, hg, hx, hgx1]
    · by_cases hx : x = groupId
      · simp only [pushMember, hg, if_false, hx, if_true] at ih ⊢
        simp [List.find?_cons, hg, ih]
      · simp only [pushMember, hg, if_false, hx] at ih ⊢
        by_cases hgx : g.id = x
        · simp [List.find?_cons, hgx]
        · simp [List.find?_cons, hgx, ih]

theorem mem_pushMember (groups : List Group) (groupId userId : String) (g1 : Group)
    (h : g1 ∈ pushMember groups groupId userId) :
    g1 ∈ groups ∨ ∃ g, findGroup groups groupId = some g ∧
      g1 = { g with members := g.members ++ [userId] } := by
  induction groups with
  | nil => simp [pushMember] at h
  | cons g rest ih =>
    by_cases hg : g.id = groupId
    · simp only [pushMember, if_pos hg, List.mem_cons] at h
      rcases h with h | h
      · exact Or.inr ⟨g, by simp [findGroup, hg], h⟩
      · exact Or.inl (List.mem_cons_of_mem _ h)
    · simp only [pushMember, hg, if_false, List.mem_cons] at h
      rcases h with h | h
      · exact Or.inl (by simp [h])
      · rcases ih h with h1 | ⟨g0, h1, h2⟩
        · exact Or.inl (List.mem_cons_of_mem _ h1)
        · exact Or.inr ⟨g0, by simpa [findGroup, List.find?_cons, hg] using h1, h2⟩

theorem findGroup_mem (groups : List Group) (groupId : String) (g : Group)
    (h : findGroup groups groupId = some g) : g ∈ groups :=
  List.mem_of_find?_eq_some h

theorem GroupsInv.of_step {groups groups1 : List Group} (hinv : GroupsInv groups)
    (hstep : GroupsStep groups groups1) : GroupsInv groups1 := by
  cases hstep with
  | same => exact hinv
  | push groupId userId g hfind hnot =>
    constructor
    · intro g1 hg1
      rcases mem_pushMember groups groupId userId g1 hg1 with h | ⟨g0, h0, h1⟩
      · exact hinv.members g1 h
      · rw [hfind] at h0
        cases h0
        subst h1
        have hnd := hinv.members g (findGroup_mem groups groupId g hfind)
        exact List.Nodup.append hnd (List.nodup_singleton _) (by simpa using hnot)
    · obtain ⟨e, he⟩ := hinv.everyone
      rw [findGroup_pushMember]
      by_cases hx : "everyone" = groupId
      · subst hx
        simp [he]
      · simp [hx, he]
  | create g hg =>
    constructor
    · intro g1 hg1
      rcases List.mem_append.mp hg1 with h | h
      · exact hinv.members g1 h
      · simp at h
        subst h
        exact hg
    · obtain ⟨e, he⟩ := hinv.everyone
      exact ⟨e, by simp [findGroup, List.find?_append] at he ⊢; simp [he]⟩

theorem contains_eq_true_iff (members : List String) (userId : String) :
    members.contains userId = true ↔ userId ∈ members := by
  simp

theorem EveryoneHas.mono {groups groups1 : List Group} {userId : String}
    (h : EveryoneHas groups userId) (hstep : GroupsStep groups groups1) :
    EveryoneHas groups1 userId := by
  obtain ⟨e, he, hmem⟩ := h
  cases hstep with
  | same => exact ⟨e, he, hmem⟩
  | push groupId newId g hfind hnot =>
    unfold EveryoneHas
    rw [findGroup_pushMember]
    by_cases hx : "everyone" = groupId
    · subst hx
      refine ⟨{ e with members := e.members ++ [newId] }, by simp [he], ?_⟩
      exact List.mem_append_left _ hmem
    · exact ⟨e, by simp [hx, he], hmem⟩
  | create g hg =>
    refine ⟨e, ?_, hmem⟩
    simp only [findGroup, List.find?_append] at he ⊢
    simp [he]

theorem onConnection_everyoneHas (st : ServerState) (socket : Socket)
    (hinv : GroupsInv st.inMemoryGroups) :
    EveryoneHas (onConnection st socket).state.inMemoryGroups socket.user.id := by
  obtain ⟨e, he⟩ := hinv.everyone
  simp only [onConnection, he]
  by_cases hmem : e.members.contains socket.user.id = true
  · simp only [if_pos hmem]
    exact ⟨e, he, (contains_eq_true_iff _ _).mp hmem⟩
  · simp only [if_neg hmem]
    unfold EveryoneHas
    rw [findGroup_pushMember]
    refine ⟨{ e with members := e.members ++ [socket.user.id] }, by simp [he], ?_⟩
    exact List.mem_append_right _ (List.mem_singleton_self _)

/-! ## What each handler changes -/

/-- The registration route changes `inMemoryUsers` only. -/
theorem register_keeps (st : ServerState) (body : RegisterBody)
    (found : DbResult (Option StoredUser)) (hashedPassword : String) (now : Nat)
    (documentId : String) (saveThrows : Bool) :
    (register st body found hashedPassword now documentId saveThrows).state.inMemoryGroups =
      st.inMemoryGroups ∧
    (register st body found hashedPassword now documentId saveThrows).state.connectedUsers =
      st.connectedUsers ∧
    (register st body found hashedPassword now documentId saveThrows).state.inMemoryMessages =
      st.inMemoryMessages := by
  unfold register
  cases lookupUser st body.username found with
  | some u => exact ⟨rfl, rfl, rfl⟩
  | none =>
    cases body.password with
    | none => exact ⟨rfl, rfl, rfl⟩
    | some pw => cases saveThrows <;> exact ⟨rfl, rfl, rfl⟩

/-- The creation of the demo user changes `inMemoryUsers` only. -/
theorem createDemoUser_keeps (st : ServerState) (found : DbResult (Option StoredUser))
    (hashedPassword : String) (documentId : String) (saveThrows : Bool) :
    (createDemoUser st found hashedPassword documentId saveThrows).state.inMemoryGroups =
      st.inMemoryGroups ∧
    (createDemoUser st found hashedPassword documentId saveThrows).state.connectedUsers =
      st.connectedUsers ∧
    (createDemoUser st found hashedPassword documentId saveThrows).state.inMemoryMessages =
      st.inMemoryMessages := by
  unfold createDemoUser
  cases lookupUser st "demo" found with
  | some u => exact ⟨rfl, rfl, rfl⟩
  | none => cases saveThrows <;> exact ⟨rfl, rfl, rfl⟩

theorem joinInMemory_groupsStep (st : ServerState) (user : User) (groupId : String)
    (dbWrites : List DbWrite) :
    GroupsStep st.inMemoryGroups (joinInMemory st user groupId dbWrites).state.inMemoryGroups := by
  unfold joinInMemory
  cases hfind : findGroup st.inMemoryGroups groupId with
  | none => exact GroupsStep.same
  | some g =>
    by_cases hmem : g.members.contains user.id = true
    · simp only [if_pos hmem]
      exact GroupsStep.same
    · simp only [if_neg hmem]
      exact GroupsStep.push groupId user.id g hfind
        (fun h => hmem ((contains_eq_true_iff _ _).mpr h))

theorem handle_groupsStep (st : ServerState) (ev : Event) :
    GroupsStep st.inMemoryGroups (handle st ev).state.inMemoryGroups := by
  cases ev with
  | connection socket =>
    simp only [handle, onConnection]
    cases hfind : findGroup st.inMemoryGroups "everyone" with
    | none => exact GroupsStep.same
    | some g =>
      by_cases hmem : g.members.contains socket.user.id = true
      · simp only [if_pos hmem]
        exact GroupsStep.same
      · simp only [if_neg hmem]
        exact GroupsStep.push "everyone" socket.user.id g hfind
          (fun h => hmem ((contains_eq_true_iff _ _).mpr h))
  | disconnect socket => exact GroupsStep.same
  | privateMessage socket data now saveThrows =>
    cases saveThrows <;> exact GroupsStep.same
  | groupMessage socket data now found saveThrows =>
    simp only [handle, onGroupMessage]
    cases lookupGroup st data.groupId found with
    | none => exact GroupsStep.same
    | some g =>
      by_cases hmem : g.members.contains socket.user.id = true
      · simp only [if_pos hmem]
        cases saveThrows <;> exact GroupsStep.same
      · simp only [if_neg hmem]
        exact GroupsStep.same
  | createGroup user body now documentId saveThrows =>
    simp only [handle, createGroup]
    cases body.name with
    | none => exact GroupsStep.same
    | some name =>
      by_cases hname : name = ""
      · simp only [if_pos hname]
        exact GroupsStep.same
      · simp only [if_neg hname]
        cases saveThrows with
        | false => exact GroupsStep.same
        | true => exact GroupsStep.create _ (List.nodup_singleton _)
  | joinGroup user groupId found saveThrows =>
    simp only [handle, joinGroup]
    cases found with
    | threw => exact joinInMemory_groupsStep st user groupId []
    | returned value =>
      cases value with
      | none => exact GroupsStep.same
      | some g =>
        by_cases hmem : g.members.contains user.id = true
        · simp only [if_pos hmem]
          exact GroupsStep.same
        · simp only [if_neg hmem]
          cases saveThrows with
          | false => exact GroupsStep.same
          | true => exact joinInMemory_groupsStep st user groupId _
  | register body found hashedPassword now documentId saveThrows =>
    simp only [handle]
    rw [(register_keeps st body found hashedPassword now documentId saveThrows).1]
    exact GroupsStep.same
  | createDemoUser found hashedPassword documentId saveThrows =>
    simp only [handle]
    rw [(createDemoUser_keeps st found hashedPassword documentId saveThrows).1]
    exact GroupsStep.same

theorem joinInMemory_connectedUsers (st : ServerState) (user : User) (groupId : String)
    (dbWrites : List DbWrite) :
    (joinInMemory st user groupId dbWrites).state.connectedUsers = st.connectedUsers := by
  unfold joinInMemory
  cases findGroup st.inMemoryGroups groupId with
  | none => rfl
  | some g =>
    by_cases hmem : g.members.contains user.id = true
    · simp only [if_pos hmem]
    · simp only [if_neg hmem]

/-- The presence map after an event: only `connection` and `disconnect` touch it. -/
theorem handle_connectedUsers (st : ServerState) (ev : Event) :
    (handle st ev).state.connectedUsers =
      match ev with
      | .connection socket =>
        st.connectedUsers.set socket.user.id
          { id := socket.user.id, username := socket.user.username, socketId := socket.id }
      | .disconnect socket => st.connectedUsers.delete socket.user.id
      | _ => st.connectedUsers := by
  cases ev with
  | connection socket => rfl
  | disconnect socket => rfl
  | privateMessage socket data now saveThrows => cases saveThrows <;> rfl
  | groupMessage socket data now found saveThrows =>
    simp only [handle, onGroupMessage]
    cases lookupGroup st data.groupId found with
    | none => rfl
    | some g =>
      by_cases hmem : g.members.contains socket.user.id = true
      · simp only [if_pos hmem]
        cases saveThrows <;> rfl
      · simp only [if_neg hmem]
  | createGroup user body now documentId saveThrows =>
    simp only [handle, createGroup]
    cases body.name with
    | none => rfl
    | some name =>
      by_cases hname : name = ""
      · simp only [if_pos hname]
      · simp only [if_neg hname]
        cases saveThrows <;> rfl
  | joinGroup user groupId found saveThrows =>
    simp only [handle, joinGroup]
    cases found with
    | threw => exact joinInMemory_connectedUsers st user groupId []
    | returned value =>
      cases value with
      | none => rfl
      | some g =>
        by_cases hmem : g.members.contains user.id = true
        · simp only [if_pos hmem]
        · simp only [if_neg hmem]
          cases saveThrows with
          | false => rfl
          | true => exact joinInMemory_connectedUsers st user groupId _
  | register body found hashedPassword now documentId saveThrows =>
    exact (register_keeps st body found hashedPassword now documentId saveThrows).2.1
  | createDemoUser found hashedPassword documentId saveThrows =>
    exact (createDemoUser_keeps st found hashedPassword documentId saveThrows).2.1

/-! ## Invariants of the reachable worlds -/

theorem Inv.initial : Inv World.initial := by
  refine ⟨by simp [World.initial], by simp [World.initial, ServerState.initial, JSMap.keys],
    by simp [World.initial, ServerState.initial], ⟨?_, ?_⟩, by simp [World.initial]⟩
  · intro g hg
    simp [World.initial, ServerState.initial, initialGroups] at hg
    subst hg
    simp
  · exact ⟨_, rfl⟩

theorem Inv.after {w : World} (hinv : Inv w) (ev : Event) (hen : ev.enabled w = true) :
    Inv (w.after ev) := by
  refine ⟨?_, ?_, ?_, hinv.groups.of_step (handle_groupsStep w.server ev), ?_⟩
  · cases ev with
    | connection socket =>
      simp only [Event.enabled, List.all_eq_true, decide_eq_true_eq] at hen
      simp only [World.after, socketsAfter, List.map_append, List.map_cons, List.map_nil]
      refine List.Nodup.append hinv.socketIds (List.nodup_singleton _) ?_
      intro a ha hb
      obtain ⟨s, hs, hsa⟩ := List.mem_map.mp ha
      simp only [List.mem_singleton] at hb
      exact hen s hs (hsa.trans hb)
    | disconnect socket =>
      exact hinv.socketIds.sublist (List.Sublist.map _ (List.erase_sublist _ _))
    | privateMessage socket data now saveThrows => exact hinv.socketIds
    | groupMessage socket data now found saveThrows => exact hinv.socketIds
    | createGroup user body now documentId saveThrows => exact hinv.socketIds
    | joinGroup user groupId found saveThrows => exact hinv.socketIds
    | register body found hashedPassword now documentId saveThrows => exact hinv.socketIds
    | createDemoUser found hashedPassword documentId saveThrows => exact hinv.socketIds
  · simp only [World.after]
    rw [handle_connectedUsers]
    cases ev with
    | connection socket => exact JSMap.keys_set_nodup _ _ _ hinv.keys
    | disconnect socket => exact JSMap.keys_delete_nodup _ _ hinv.keys
    | privateMessage socket data now saveThrows => exact hinv.keys
    | groupMessage socket data now found saveThrows => exact hinv.keys
    | createGroup user body now documentId saveThrows => exact hinv.keys
    | joinGroup user groupId found saveThrows => exact hinv.keys
    | register body found hashedPassword now documentId saveThrows => exact hinv.keys
    | createDemoUser found hashedPassword documentId saveThrows => exact hinv.keys
  · intro k e hke
    simp only [World.after] at hke ⊢
    rw [handle_connectedUsers] at hke
    cases ev with
    | connection socket =>
      simp only [socketsAfter]
      rcases JSMap.mem_set _ _ _ _ hke with h | h
      · cases h
        exact ⟨rfl, socket, by simp, rfl, rfl⟩
      · obtain ⟨h1, s, hs, h2⟩ := hinv.entries k e h
        exact ⟨h1, s, List.mem_append_left _ hs, h2⟩
    | disconnect socket =>
      simp only [socketsAfter]
      obtain ⟨hmem, hne⟩ := (JSMap.mem_delete _ _ _).mp hke
      obtain ⟨h1, s, hs, h2, h3⟩ := hinv.entries k e hmem
      refine ⟨h1, s, ?_, h2, h3⟩
      have hsne : s ≠ socket := by
        intro h
        subst h
        exact hne h3.symm
      exact (List.mem_erase_of_ne hsne).mpr hs
    | privateMessage socket data now saveThrows => exact hinv.entries k e hke
    | groupMessage socket data now found saveThrows => exact hinv.entries k e hke
    | createGroup user body now documentId saveThrows => exact hinv.entries k e hke
    | joinGroup user groupId found saveThrows => exact hinv.entries k e hke
    | register body found hashedPassword now documentId saveThrows => exact hinv.entries k e hke
    | createDemoUser found hashedPassword documentId saveThrows => exact hinv.entries k e hke
  · intro s hs
    have hold : ∀ t ∈ w.sockets,
        EveryoneHas (handle w.server ev).state.inMemoryGroups t.user.id :=
      fun t ht => (hinv.joined t ht).mono (handle_groupsStep w.server ev)
    cases ev with
    | connection socket =>
      simp only [World.after, socketsAfter, List.mem_append, List.mem_singleton] at hs
      rcases hs with hs | hs
      · exact hold s hs
      · subst hs
        exact onConnection_everyoneHas w.server s hinv.groups
    | disconnect socket => exact hold s (List.mem_of_mem_erase hs)
    | privateMessage socket data now saveThrows => exact hold s hs
    | groupMessage socket data now found saveThrows => exact hold s hs
    | createGroup user body now documentId saveThrows => exact hold s hs
    | joinGroup user groupId found saveThrows => exact hold s hs
    | register body found hashedPassword now documentId saveThrows => exact hold s hs
    | createDemoUser found hashedPassword documentId saveThrows => exact hold s hs

theorem Reachable.inv {w : World} (h : Reachable w) : Inv w := by
  induction h with
  | initial => exact Inv.initial
  | step ev _ hen ih => exact ih.after ev hen

/-- Two open sockets with the same id are the same socket. -/
theorem Inv.socket_eq {w : World} (hinv : Inv w) {s t : Socket} (hs : s ∈ w.sockets)
    (ht : t ∈ w.sockets) (hid : s.id = t.id) : s = t :=
  List.inj_on_of_nodup_map hinv.socketIds hs ht hid

/-- The registered connection of an identity is an open socket of that identity. -/
theorem Inv.socket_of_get {w : World} (hinv : Inv w) {k : String} {e : ConnectedUser}
    (h : w.server.connectedUsers.get k = some e) :
    e.id = k ∧ ∃ s ∈ w.sockets, s.id = e.socketId ∧ s.user.id = k :=
  hinv.entries k e (JSMap.mem_of_get _ _ _ h)

/-- A run of events from a reachable world ends in a reachable world. -/
theorem Reachable.run {w w1 : World} (evs : List Event) (h : Reachable w)
    (hrun : w.run evs = some w1) : Reachable w1 := by
  induction evs generalizing w with
  | nil =>
    simp only [World.run, Option.some.injEq] at hrun
    exact hrun ▸ h
  | cons ev rest ih =>
    by_cases hen : ev.enabled w = true
    · simp only [World.run, hen, if_true] at hrun
      exact ih (Reachable.step ev h hen) hrun
    · simp [World.run, hen] at hrun

/-! ## Routing of private messages -/

/-- The emits of the `private message` handler, whatever the save did. -/
theorem onPrivateMessage_emits (st : ServerState) (socket : Socket)
    (data : PrivateMessageData) (now : Nat) (saveThrows : Bool) :
    (onPrivateMessage st socket data now saveThrows).emits =
      (match st.connectedUsers.get data.recipientId with
        | some recipient =>
          [⟨.room recipient.socketId, "private message",
            .message (privateMessageOf socket data now)⟩]
        | none => []) ++
      [⟨.socket socket.id, "private message", .message (privateMessageOf socket data now)⟩] := by
  cases saveThrows <;> rfl

/-- In a reachable world the registered connection of another identity is not
the socket that sends. -/
theorem Inv.sender_ne_registered {w : World} (hinv : Inv w) {socket : Socket}
    (hs : socket ∈ w.sockets) {k : String} {e : ConnectedUser}
    (hget : w.server.connectedUsers.get k = some e) (hne : socket.user.id ≠ k) :
    socket.id ≠ e.socketId := by
  intro hid
  obtain ⟨_, t, ht, htid, htu⟩ := hinv.socket_of_get hget
  have := hinv.socket_eq hs ht (hid.trans htid.symm)
  subst this
  exact hne htu

/-- C1 (amended): when the socket of A sends a `private message` to recipientId
B while B has an entry in `connectedUsers`, the message carries A's id and the
content sent, and the registered connection of B gets exactly one
`private message` event when it is not the sending socket, which is always so
when A and B differ; when it is the sending socket it gets two, the routed copy
and then the echo. -/
theorem private_message_reaches_recipient (w : World) (hr : Reachable w)
    (socket : Socket) (hs : socket ∈ w.sockets) (data : PrivateMessageData) (now : Nat)
    (saveThrows : Bool) (recipient : ConnectedUser)
    (hget : w.server.connectedUsers.get data.recipientId = some recipient) :
    (privateMessageOf socket data now).senderId = socket.user.id ∧
    (privateMessageOf socket data now).content = data.content ∧
    (socket.user.id ≠ data.recipientId → socket.id ≠ recipient.socketId) ∧
    (socket.id ≠ recipient.socketId →
      receivedEvent recipient.socketId "private message"
          (onPrivateMessage w.server socket data now saveThrows).emits =
        [⟨.room recipient.socketId, "private message",
          .message (privateMessageOf socket data now)⟩]) ∧
    (socket.id = recipient.socketId →
      receivedEvent recipient.socketId "private message"
          (onPrivateMessage w.server socket data now saveThrows).emits =
        [⟨.room recipient.socketId, "private message",
          .message (privateMessageOf socket data now)⟩,
         ⟨.socket socket.id, "private message",
          .message (privateMessageOf socket data now)⟩]) := by
  refine ⟨rfl, rfl, fun hne => hr.inv.sender_ne_registered hs hget hne, ?_, ?_⟩
  · intro hne
    rw [onPrivateMessage_emits, hget]
    simp [receivedEvent, receivedBy, Emit.reaches, hne]
  · intro heq
    rw [onPrivateMessage_emits, hget]
    simp [receivedEvent, receivedBy, Emit.reaches, heq]

/-- Witness for C1 (amended): `u1` writes to `u2` when both are connected. -/
theorem private_message_reaches_recipient_witness :
    receivedEvent "s2" "private message"
        (onPrivateMessage sampleWorld2.server sampleSocket1 ⟨"u2", "hi"⟩ 7 false).emits =
      [⟨.room "s2", "private message",
        .message (privateMessageOf sampleSocket1 ⟨"u2", "hi"⟩ 7)⟩] :=
  (private_message_reaches_recipient sampleWorld2
    (Reachable.step _ (Reachable.step _ Reachable.initial (by decide)) (by decide))
    sampleSocket1 (by decide) ⟨"u2", "hi"⟩ 7 false ⟨"u2", "bob", "s2"⟩ (by decide)).2.2.2.1
    (by decide)

/-- C1 as stated fails for A = B: `u1`, connected with the socket `s1`, writes to
itself, and its registered connection `s1` gets two `private message` events. -/
theorem private_message_to_self_twice :
    Reachable sampleWorld1 ∧ sampleSocket1 ∈ sampleWorld1.sockets ∧
    sampleWorld1.server.connectedUsers.get "u1" = some ⟨"u1", "alice", "s1"⟩ ∧
    receivedEvent "s1" "private message"
        (onPrivateMessage sampleWorld1.server sampleSocket1 ⟨"u1", "hi"⟩ 7 false).emits =
      [⟨.room "s1", "private message",
        .message ⟨"u1", "alice", "u1", "hi", 7, false⟩⟩,
       ⟨.socket "s1", "private message",
        .message ⟨"u1", "alice", "u1", "hi", 7, false⟩⟩] :=
  ⟨Reachable.step _ Reachable.initial (by decide), by decide, by decide, by decide⟩

/-- C9: the deliveries of a `private message` event are one to the connection
registered for recipientId, if `connectedUsers` has one, and then one to the
sending socket; so the sending socket always gets the message, no emit is an
`error`, and with the recipient offline no other socket gets anything. -/
theorem private_message_deliveries (st : ServerState) (socket : Socket)
    (data : PrivateMessageData) (now : Nat) (saveThrows : Bool) :
    (onPrivateMessage st socket data now saveThrows).emits =
      (match st.connectedUsers.get data.recipientId with
        | some recipient =>
          [⟨.room recipient.socketId, "private message",
            .message (privateMessageOf socket data now)⟩]
        | none => []) ++
      [⟨.socket socket.id, "private message",
        .message (privateMessageOf socket data now)⟩] ∧
    (⟨.socket socket.id, "private message", .message (privateMessageOf socket data now)⟩ : Emit) ∈
      receivedBy socket.id (onPrivateMessage st socket data now saveThrows).emits ∧
    (∀ e ∈ (onPrivateMessage st socket data now saveThrows).emits,
      e.event = "private message") ∧
    (onPrivateMessage st socket data now saveThrows).rejected = false ∧
    (st.connectedUsers.get data.recipientId = none →
      (onPrivateMessage st socket data now saveThrows).emits =
        [⟨.socket socket.id, "private message",
          .message (privateMessageOf socket data now)⟩] ∧
      ∀ sid, sid ≠ socket.id →
        receivedBy sid (onPrivateMessage st socket data now saveThrows).emits = []) := by
  have hemits := onPrivateMessage_emits st socket data now saveThrows
  refine ⟨hemits, ?_, ?_, ?_, ?_⟩
  · rw [hemits]
    simp [receivedBy, Emit.reaches]
  · rw [hemits]
    intro e he
    cases hget : st.connectedUsers.get data.recipientId with
    | none =>
      simp [hget] at he
      simp [he]
    | some r =>
      simp [hget] at he
      rcases he with he | he <;> simp [he]
  · unfold Outcome.rejected
    rw [hemits]
    cases hget : st.connectedUsers.get data.recipientId <;> simp
  · intro hnone
    rw [hemits, hnone]
    refine ⟨rfl, ?_⟩
    intro sid hsid
    simp [receivedBy, Emit.reaches, Ne.symm hsid]

/-- Witness for C9: `u1`, alone on the server, writes to the offline `u2`; only
its own socket gets the message. -/
theorem private_message_deliveries_witness :
    (onPrivateMessage sampleWorld1.server sampleSocket1 ⟨"u2", "hi"⟩ 7 true).emits =
        [⟨.socket "s1", "private message",
          .message (privateMessageOf sampleSocket1 ⟨"u2", "hi"⟩ 7)⟩] ∧
    ∀ sid, sid ≠ sampleSocket1.id →
      receivedBy sid
        (onPrivateMessage sampleWorld1.server sampleSocket1 ⟨"u2", "hi"⟩ 7 true).emits = [] :=
  (private_message_deliveries sampleWorld1.server sampleSocket1 ⟨"u2", "hi"⟩ 7 true).2.2.2.2
    (by decide)

/-! ## Routing of group messages -/

theorem fanOut_event (members : List String) (connectedUsers : JSMap ConnectedUser)
    (message : Message) :
    ∀ e ∈ fanOut members connectedUsers message,
      e.event = "group message" ∧ e.payload = .message message ∧
      ∃ memberId ∈ members, ∃ member, connectedUsers.get memberId = some member ∧
        e.target = .room member.socketId := by
  induction members with
  | nil => simp [fanOut]
  | cons a rest ih =>
    intro e he
    cases hget : connectedUsers.get a with
    | none =>
      simp only [fanOut, hget] at he
      obtain ⟨h1, h2, m, hm, r, hr, ht⟩ := ih e he
      exact ⟨h1, h2, m, List.mem_cons_of_mem _ hm, r, hr, ht⟩
    | some member =>
      simp only [fanOut, hget, List.mem_cons] at he
      rcases he with he | he
      · subst he
        exact ⟨rfl, rfl, a, List.mem_cons_self _ _, member, hget, rfl⟩
      · obtain ⟨h1, h2, m, hm, r, hr, ht⟩ := ih e he
        exact ⟨h1, h2, m, List.mem_cons_of_mem _ hm, r, hr, ht⟩

/-- The outcome of a `group message` whose sender is not a member of the group. -/
theorem onGroupMessage_not_member (st : ServerState) (socket : Socket)
    (data : GroupMessageData) (now : Nat) (found : DbResult (Option Group))
    (saveThrows : Bool) (group : Group)
    (hlook : lookupGroup st data.groupId found = some group)
    (hnot : socket.user.id ∉ group.members) :
    onGroupMessage st socket data now found saveThrows =
      { state := st
        emits := [⟨.socket socket.id, "error", .error "You are not a member of this group"⟩]
        dbWrites := [], response := none } := by
  have hc : ¬ group.members.contains socket.user.id = true :=
    fun h => hnot ((contains_eq_true_iff _ _).mp h)
  simp only [onGroupMessage, hlook, if_neg hc]

/-- The outcome of a `group message` whose sender is a member of the group. -/
theorem onGroupMessage_member (st : ServerState) (socket : Socket)
    (data : GroupMessageData) (now : Nat) (found : DbResult (Option Group))
    (saveThrows : Bool) (group : Group)
    (hlook : lookupGroup st data.groupId found = some group)
    (hmem : socket.user.id ∈ group.members) :
    onGroupMessage st socket data now found saveThrows =
      { state :=
          if saveThrows then
            { st with inMemoryMessages :=
                st.inMemoryMessages ++ [groupMessageOf socket data now] }
          else st
        emits := fanOut group.members st.connectedUsers (groupMessageOf socket data now)
        dbWrites :=
          [.message ⟨socket.user.id, data.groupId, data.content, true⟩ (!saveThrows)]
        response := none } := by
  have hc : group.members.contains socket.user.id = true :=
    (contains_eq_true_iff _ _).mpr hmem
  simp only [onGroupMessage, hlook, if_pos hc]
  cases saveThrows <;> rfl

/-- The outcome of a `group message` when the lookup yields no group. -/
theorem onGroupMessage_no_group (st : ServerState) (socket : Socket)
    (data : GroupMessageData) (now : Nat) (found : DbResult (Option Group))
    (saveThrows : Bool) (hlook : lookupGroup st data.groupId found = none) :
    onGroupMessage st socket data now found saveThrows =
      { state := st
        emits := [⟨.socket socket.id, "error", .error "Group not found"⟩]
        dbWrites := [], response := none } := by
  simp only [onGroupMessage, hlook]

theorem fanOut_not_rejected (members : List String) (connectedUsers : JSMap ConnectedUser)
    (message : Message) :
    (fanOut members connectedUsers message).any (fun e => decide (e.event = "error")) = false := by
  rw [List.any_eq_false]
  intro e he
  have h := (fanOut_event members connectedUsers message e he).1
  simp [h]

/-- C3: when the sender is not among the members of the looked-up group, the
`group message` handler emits one `error` event to the sender, attempts no
durable save, leaves the state (so `inMemoryMessages`) as it was, and emits no
`group message` event. -/
theorem group_message_not_member (st : ServerState) (socket : Socket)
    (data : GroupMessageData) (now : Nat) (found : DbResult (Option Group))
    (saveThrows : Bool) (group : Group)
    (hlook : lookupGroup st data.groupId found = some group)
    (hnot : socket.user.id ∉ group.members) :
    (onGroupMessage st socket data now found saveThrows).emits =
      [⟨.socket socket.id, "error", .error "You are not a member of this group"⟩] ∧
    (onGroupMessage st socket data now found saveThrows).dbWrites = [] ∧
    (onGroupMessage st socket data now found saveThrows).state = st ∧
    (onGroupMessage st socket data now found saveThrows).state.inMemoryMessages =
      st.inMemoryMessages ∧
    ∀ e ∈ (onGroupMessage st socket data now found saveThrows).emits,
      e.event ≠ "group message" := by
  rw [onGroupMessage_not_member st socket data now found saveThrows group hlook hnot]
  refine ⟨rfl, rfl, rfl, rfl, ?_⟩
  intro e he
  simp only [List.mem_singleton] at he
  subst he
  show "error" ≠ "group message"
  decide

/-- Witness for C3: `u2`, connected, writes to a durable group whose only member
is `u1`. -/
theorem group_message_not_member_witness :
    (onGroupMessage sampleWorld2.server sampleSocket2 ⟨"g1", "hello"⟩ 7
        (.returned (some ⟨"g1", "team", none, ["u1"], none⟩)) true).emits =
      [⟨.socket "s2", "error", .error "You are not a member of this group"⟩] ∧
    (onGroupMessage sampleWorld2.server sampleSocket2 ⟨"g1", "hello"⟩ 7
        (.returned (some ⟨"g1", "team", none, ["u1"], none⟩)) true).dbWrites = [] :=
  have h := group_message_not_member sampleWorld2.server sampleSocket2 ⟨"g1", "hello"⟩ 7
    (.returned (some ⟨"g1", "team", none, ["u1"], none⟩)) true
    ⟨"g1", "team", none, ["u1"], none⟩ rfl (by decide)
  ⟨h.1, h.2.1⟩

/-- C10: the `group message` handler rejects exactly when the lookup yields no
group or the sender is not among the members of the group; a rejection is one
`error` event to the sender with nothing saved and the state unchanged; otherwise
one message with isGroupMessage = true and recipientId = groupId is persisted,
by the durable save or, when that throws, at the end of `inMemoryMessages`. -/
theorem group_message_rejected_iff (st : ServerState) (socket : Socket)
    (data : GroupMessageData) (now : Nat) (found : DbResult (Option Group))
    (saveThrows : Bool) :
    ((onGroupMessage st socket data now found saveThrows).rejected = true ↔
      (lookupGroup st data.groupId found = none ∨
        ∃ group, lookupGroup st data.groupId found = some group ∧
          socket.user.id ∉ group.members)) ∧
    ((onGroupMessage st socket data now found saveThrows).rejected = true →
      (∃ text, (onGroupMessage st socket data now found saveThrows).emits =
        [⟨.socket socket.id, "error", .error text⟩]) ∧
      (onGroupMessage st socket data now found saveThrows).dbWrites = [] ∧
      (onGroupMessage st socket data now found saveThrows).state = st) ∧
    ((onGroupMessage st socket data now found saveThrows).rejected = false →
      (groupMessageOf socket data now).isGroupMessage = true ∧
      (groupMessageOf socket data now).recipientId = data.groupId ∧
      (((onGroupMessage st socket data now found saveThrows).dbWrites =
          [.message ⟨socket.user.id, data.groupId, data.content, true⟩ true] ∧
        (onGroupMessage st socket data now found saveThrows).state = st) ∨
       ((onGroupMessage st socket data now found saveThrows).dbWrites =
          [.message ⟨socket.user.id, data.groupId, data.content, true⟩ false] ∧
        (onGroupMessage st socket data now found saveThrows).state =
          { st with inMemoryMessages :=
              st.inMemoryMessages ++ [groupMessageOf socket data now] }))) := by
  cases hlook : lookupGroup st data.groupId found with
  | none =>
    rw [onGroupMessage_no_group st socket data now found saveThrows hlook]
    refine ⟨⟨fun _ => Or.inl rfl, fun _ => by simp [Outcome.rejected]⟩,
      fun _ => ⟨⟨_, rfl⟩, rfl, rfl⟩, ?_⟩
    intro h
    simp [Outcome.rejected] at h
  | some group =>
    by_cases hmem : socket.user.id ∈ group.members
    · rw [onGroupMessage_member st socket data now found saveThrows group hlook hmem]
      have hrej := fanOut_not_rejected group.members st.connectedUsers
        (groupMessageOf socket data now)
      refine ⟨⟨?_, ?_⟩, ?_, ?_⟩
      · intro h
        simp only [Outcome.rejected] at h
        rw [hrej] at h
        exact absurd h (by decide)
      · rintro (h | ⟨g, hg, hnot⟩)
        · exact absurd h (by simp)
        · cases hg
          exact absurd hmem hnot
      · intro h
        simp only [Outcome.rejected] at h
        rw [hrej] at h
        exact absurd h (by decide)
      · intro _
        refine ⟨rfl, rfl, ?_⟩
        cases saveThrows
        · exact Or.inl ⟨rfl, rfl⟩
        · exact Or.inr ⟨rfl, rfl⟩
    · rw [onGroupMessage_not_member st socket data now found saveThrows group hlook hmem]
      refine ⟨⟨fun _ => Or.inr ⟨group, rfl, hmem⟩, fun _ => by simp [Outcome.rejected]⟩,
        fun _ => ⟨⟨_, rfl⟩, rfl, rfl⟩, ?_⟩
      intro h
      simp [Outcome.rejected] at h

/-- Witness for C10: the durable lookup yields no group, and the request of `u1`
is rejected with one `error` event and nothing saved. -/
theorem group_message_rejected_iff_witness :
    (∃ text, (onGroupMessage sampleWorld1.server sampleSocket1 ⟨"g1", "hello"⟩ 7
        (.returned none) false).emits = [⟨.socket "s1", "error", .error text⟩]) ∧
    (onGroupMessage sampleWorld1.server sampleSocket1 ⟨"g1", "hello"⟩ 7
        (.returned none) false).dbWrites = [] ∧
    (onGroupMessage sampleWorld1.server sampleSocket1 ⟨"g1", "hello"⟩ 7
        (.returned none) false).state = sampleWorld1.server :=
  (group_message_rejected_iff sampleWorld1.server sampleSocket1 ⟨"g1", "hello"⟩ 7
    (.returned none) false).2.1 (by decide)

theorem receivedBy_fanOut_none (members : List String) (connectedUsers : JSMap ConnectedUser)
    (message : Message) (sid : String)
    (h : ∀ m ∈ members, ∀ e, connectedUsers.get m = some e → e.socketId ≠ sid) :
    receivedBy sid (fanOut members connectedUsers message) = [] := by
  unfold receivedBy
  rw [List.filter_eq_nil_iff]
  intro e he
  obtain ⟨_, _, m, hm, r, hr, ht⟩ := fanOut_event members connectedUsers message e he
  simp [Emit.reaches, ht, h m hm r hr]

theorem receivedBy_cons (sid : String) (e : Emit) (es : List Emit) :
    receivedBy sid (e :: es) =
      if e.reaches sid = true then e :: receivedBy sid es else receivedBy sid es := by
  simp only [receivedBy, List.filter_cons]

theorem receivedBy_fanOut_one (members : List String) (connectedUsers : JSMap ConnectedUser)
    (message : Message) (m : String) (e : ConnectedUser) (hnd : members.Nodup)
    (hm : m ∈ members) (hget : connectedUsers.get m = some e)
    (hinj : ∀ m1 ∈ members, m1 ≠ m → ∀ e1, connectedUsers.get m1 = some e1 →
      e1.socketId ≠ e.socketId) :
    receivedBy e.socketId (fanOut members connectedUsers message) =
      [⟨.room e.socketId, "group message", .message message⟩] := by
  induction members with
  | nil => simp at hm
  | cons a rest ih =>
    rw [List.nodup_cons] at hnd
    by_cases ha : a = m
    · subst ha
      have hrest : receivedBy e.socketId (fanOut rest connectedUsers message) = [] := by
        apply receivedBy_fanOut_none
        intro m1 hm1 e1 he1
        have hne : m1 ≠ a := fun h => hnd.1 (h ▸ hm1)
        exact hinj m1 (List.mem_cons_of_mem _ hm1) hne e1 he1
      have hreach : Emit.reaches ⟨.room e.socketId, "group message", .message message⟩
          e.socketId = true := by simp [Emit.reaches]
      simp only [fanOut, hget]
      rw [receivedBy_cons, if_pos hreach, hrest]
    · have hm1 : m ∈ rest := by
        rcases List.mem_cons.mp hm with h | h
        · exact absurd h.symm ha
        · exact h
      have ih1 := ih hnd.2 hm1
        (fun m1 h1 hne e1 he1 => hinj m1 (List.mem_cons_of_mem _ h1) hne e1 he1)
      cases hga : connectedUsers.get a with
      | none => simpa only [fanOut, hga] using ih1
      | some ea =>
        have hne := hinj a (List.mem_cons_self _ _) ha ea hga
        have hreach : ¬ Emit.reaches ⟨.room ea.socketId, "group message", .message message⟩
            e.socketId = true := by simp [Emit.reaches, hne]
        simp only [fanOut, hga]
        rw [receivedBy_cons, if_neg hreach, ih1]

/-- In a reachable world two identities are not registered with the same socket. -/
theorem Inv.registered_injective {w : World} (hinv : Inv w) {m m1 : String}
    {e e1 : ConnectedUser} (h : w.server.connectedUsers.get m = some e)
    (h1 : w.server.connectedUsers.get m1 = some e1) (hid : e1.socketId = e.socketId) :
    m1 = m := by
  obtain ⟨_, s, hs, hsid, hsu⟩ := hinv.socket_of_get h
  obtain ⟨_, s1, hs1, hsid1, hsu1⟩ := hinv.socket_of_get h1
  have := hinv.socket_eq hs1 hs (hsid1.trans (hid.trans hsid.symm))
  subst this
  exact hsu1.symm.trans hsu

/-- C2: for an accepted `group message` to the looked-up group G, every member
of G that has an entry in `connectedUsers` gets, on its registered connection,
exactly one `group message` event, which carries the message; and no open
connection of an identity outside G.members gets any event. A group document
that comes from the durable store is taken with the data model's invariant that
its members hold no duplicate; for a group in memory this holds by itself. -/
theorem group_message_reaches_members (w : World) (hr : Reachable w)
    (socket : Socket) (data : GroupMessageData) (now : Nat)
    (found : DbResult (Option Group)) (saveThrows : Bool) (group : Group)
    (hlook : lookupGroup w.server data.groupId found = some group)
    (hsender : socket.user.id ∈ group.members)
    (hdoc : ∀ doc, found = .returned (some doc) → doc.members.Nodup) :
    (∀ memberId ∈ group.members, ∀ member,
      w.server.connectedUsers.get memberId = some member →
      receivedEvent member.socketId "group message"
          (onGroupMessage w.server socket data now found saveThrows).emits =
        [⟨.room member.socketId, "group message",
          .message (groupMessageOf socket data now)⟩]) ∧
    (∀ t ∈ w.sockets, t.user.id ∉ group.members →
      receivedBy t.id (onGroupMessage w.server socket data now found saveThrows).emits = []) ∧
    (∀ outsider, outsider ∉ group.members → ∀ registered,
      w.server.connectedUsers.get outsider = some registered →
      receivedBy registered.socketId
        (onGroupMessage w.server socket data now found saveThrows).emits = []) := by
  have hinv := hr.inv
  have hnd : group.members.Nodup := by
    cases found with
    | threw => exact hinv.groups.members group (findGroup_mem _ _ _ hlook)
    | returned value =>
      cases value with
      | none => simp [lookupGroup] at hlook
      | some doc =>
        simp only [lookupGroup, Option.some.injEq] at hlook
        subst hlook
        exact hdoc doc rfl
  rw [onGroupMessage_member w.server socket data now found saveThrows group hlook hsender]
  refine ⟨?_, ?_, ?_⟩
  · intro memberId hmem member hget
    unfold receivedEvent
    rw [receivedBy_fanOut_one group.members w.server.connectedUsers _ memberId member hnd
      hmem hget
      (fun m1 _ hne e1 he1 hid => hne (hinv.registered_injective hget he1 hid))]
    simp
  · intro t ht hnot
    apply receivedBy_fanOut_none
    intro m hm e he hid
    obtain ⟨_, s, hs, hsid, hsu⟩ := hinv.socket_of_get he
    have := hinv.socket_eq hs ht (hsid.trans hid)
    subst this
    exact hnot (hsu ▸ hm)
  · intro outsider hnot registered hget
    apply receivedBy_fanOut_none
    intro m hm e he hid
    exact hnot (hinv.registered_injective hget he hid ▸ hm)

/-- Witness for C2: `u1` writes to the group `'everyone'` when `u1` and `u2` are
connected and the durable lookup throws; the connection of `u2` gets the message
once. -/
theorem group_message_reaches_members_witness :
    receivedEvent "s2" "group message"
        (onGroupMessage sampleWorld2.server sampleSocket1 ⟨"everyone", "hello"⟩ 7
          .threw false).emits =
      [⟨.room "s2", "group message",
        .message (groupMessageOf sampleSocket1 ⟨"everyone", "hello"⟩ 7)⟩] :=
  (group_message_reaches_members sampleWorld2
    (Reachable.step _ (Reachable.step _ Reachable.initial (by decide)) (by decide))
    sampleSocket1 ⟨"everyone", "hello"⟩ 7 .threw false
    ⟨"everyone", "Everyone", some "Public group for all users", ["u1", "u2"], none⟩
    (by decide) (by decide) (by intro doc h; cases h)).1
    "u2" (by decide) ⟨"u2", "bob", "s2"⟩ (by decide)

/-! ## Registration and replacement of connections -/

/-- C4: after a connection c1 of an identity is registered and then a connection
c2 of the same identity, `connectedUsers` holds exactly one entry for that
identity, with the socket id of c2, and a private message that a socket of
another identity then sends to it goes once to c2 and not to c1. -/
theorem second_registration_replaces_first (w : World) (hr : Reachable w)
    (c1 c2 : Socket) (hsame : c1.user.id = c2.user.id)
    (h1 : (Event.connection c1).enabled w = true)
    (h2 : (Event.connection c2).enabled (w.after (.connection c1)) = true) :
    ((w.after (.connection c1)).after (.connection c2)).server.connectedUsers.filter
        (fun p => decide (p.1 = c2.user.id)) =
      [(c2.user.id, ⟨c2.user.id, c2.user.username, c2.id⟩)] ∧
    ((w.after (.connection c1)).after (.connection c2)).server.connectedUsers.get c2.user.id =
      some ⟨c2.user.id, c2.user.username, c2.id⟩ ∧
    ∀ sender ∈ ((w.after (.connection c1)).after (.connection c2)).sockets,
      sender.user.id ≠ c2.user.id → ∀ (content : String) (now : Nat) (saveThrows : Bool),
      receivedEvent c2.id "private message"
          (onPrivateMessage ((w.after (.connection c1)).after (.connection c2)).server
            sender ⟨c2.user.id, content⟩ now saveThrows).emits =
        [⟨.room c2.id, "private message",
          .message (privateMessageOf sender ⟨c2.user.id, content⟩ now)⟩] ∧
      receivedBy c1.id
          (onPrivateMessage ((w.after (.connection c1)).after (.connection c2)).server
            sender ⟨c2.user.id, content⟩ now saveThrows).emits = [] := by
  have hr1 : Reachable (w.after (.connection c1)) := Reachable.step _ hr h1
  have hr2 : Reachable ((w.after (.connection c1)).after (.connection c2)) :=
    Reachable.step _ hr1 h2
  have hcu : ((w.after (.connection c1)).after (.connection c2)).server.connectedUsers =
      (w.after (.connection c1)).server.connectedUsers.set c2.user.id
        ⟨c2.user.id, c2.user.username, c2.id⟩ := rfl
  have hget : ((w.after (.connection c1)).after (.connection c2)).server.connectedUsers.get
      c2.user.id = some ⟨c2.user.id, c2.user.username, c2.id⟩ := by
    rw [hcu]
    exact JSMap.get_set_self _ _ _
  have hc1 : c1 ∈ (w.after (.connection c1)).sockets := by
    simp [World.after, socketsAfter]
  have hc1in : c1 ∈ ((w.after (.connection c1)).after (.connection c2)).sockets := by
    simp [World.after, socketsAfter]
  have hc2in : c2 ∈ ((w.after (.connection c1)).after (.connection c2)).sockets := by
    simp [World.after, socketsAfter]
  have hids : c1.id ≠ c2.id := by
    simp only [Event.enabled, List.all_eq_true, decide_eq_true_eq] at h2
    exact h2 c1 hc1
  refine ⟨?_, hget, ?_⟩
  · rw [hcu]
    exact JSMap.filter_key_set _ _ _ hr1.inv.keys
  · intro sender hsender hne content now saveThrows
    have hs2 : sender.id ≠ c2.id := fun h => hne (hr2.inv.socket_eq hsender hc2in h ▸ rfl)
    have hs1 : sender.id ≠ c1.id := fun h =>
      hne ((hr2.inv.socket_eq hsender hc1in h ▸ rfl : sender.user.id = c1.user.id).trans hsame)
    rw [onPrivateMessage_emits, hget]
    constructor
    · simp [receivedEvent, receivedBy, Emit.reaches, hs2]
    · simp [receivedBy, Emit.reaches, hs1, Ne.symm hids]

/-- Witness for C4: `u1` connects with `s1` and then with `s3`; a message of `u2`
to `u1` goes to `s3` and not to `s1`. -/
theorem second_registration_replaces_first_witness :
    (((World.initial.after (.connection sampleSocket2)).after
        (.connection sampleSocket1)).after (.connection sampleSocket3)).server.connectedUsers.filter
        (fun p => decide (p.1 = "u1")) = [("u1", ⟨"u1", "alice", "s3"⟩)] :=
  (second_registration_replaces_first (World.initial.after (.connection sampleSocket2))
    (Reachable.step _ Reachable.initial (by decide)) sampleSocket1 sampleSocket3 rfl
    (by decide) (by decide)).1

/-- C5 fails on the code: `u1` connects with `s1`, then with `s3`, then the
replaced connection `s1` disconnects. The connection `s3` is still open, yet
`connectedUsers` has no entry for `u1` and the roster that is broadcast is empty. -/
theorem disconnect_of_replaced_connection_unregisters :
    Reachable ((sampleWorld1.after (.connection sampleSocket3)).after
      (.disconnect sampleSocket1)) ∧
    World.initial.run [.connection sampleSocket1, .connection sampleSocket3,
        .disconnect sampleSocket1] =
      some ((sampleWorld1.after (.connection sampleSocket3)).after
        (.disconnect sampleSocket1)) ∧
    (sampleWorld1.after (.connection sampleSocket3)).server.connectedUsers.get "u1" =
      some ⟨"u1", "alice", "s3"⟩ ∧
    sampleSocket3 ∈ ((sampleWorld1.after (.connection sampleSocket3)).after
      (.disconnect sampleSocket1)).sockets ∧
    ((sampleWorld1.after (.connection sampleSocket3)).after
      (.disconnect sampleSocket1)).server.connectedUsers.get "u1" = none ∧
    (onDisconnect (sampleWorld1.after (.connection sampleSocket3)).server sampleSocket1).emits =
      [⟨.all, "users", .users []⟩] :=
  ⟨Reachable.step _ (Reachable.step _ (Reachable.step _ Reachable.initial (by decide))
      (by decide)) (by decide),
    by decide, by decide, by decide, by decide, by decide⟩

/-! ## Joining a group -/

theorem count_eq_one_of_mem_nodup (members : List String) (userId : String)
    (hnd : members.Nodup) (hmem : userId ∈ members) : members.count userId = 1 :=
  List.count_eq_one_of_mem hnd hmem

theorem count_push_of_not_mem (members : List String) (userId : String)
    (hnot : userId ∉ members) : (members ++ [userId]).count userId = 1 := by
  rw [List.count_append, List.count_eq_zero_of_not_mem hnot]
  simp

/-- C6: joining an existing group twice leaves the identity exactly once among
the members, and the second join changes nothing. On the in-memory path (the
durable lookup throws both times) the group is the one that `find` returns in a
reachable state; on the durable path (lookup and save go through) it is a group
document without duplicate members, read back as the first join stored it. -/
theorem join_twice (w : World) (hr : Reachable w) (user : User) (groupId : String)
    (group doc : Group) (saveThrows : Bool)
    (hfind : findGroup w.server.inMemoryGroups groupId = some group)
    (hdoc : doc.members.Nodup) :
    (∃ joined,
      findGroup (joinGroup w.server user groupId .threw saveThrows).state.inMemoryGroups
        groupId = some joined ∧
      joined.members.count user.id = 1 ∧
      (joinGroup w.server user groupId .threw saveThrows).response =
        some ⟨200, .group joined⟩ ∧
      joinGroup (joinGroup w.server user groupId .threw saveThrows).state user groupId
          .threw saveThrows =
        { state := (joinGroup w.server user groupId .threw saveThrows).state
          emits := [], dbWrites := [], response := some ⟨200, .group joined⟩ }) ∧
    ((storedGroupAfter doc
        (joinGroup w.server user groupId (.returned (some doc)) false).dbWrites).members.count
        user.id = 1 ∧
      (joinGroup w.server user groupId (.returned (some doc)) false).state = w.server ∧
      (joinGroup w.server user groupId (.returned (some doc)) false).response =
        some ⟨200, .group (storedGroupAfter doc
          (joinGroup w.server user groupId (.returned (some doc)) false).dbWrites)⟩ ∧
      joinGroup (joinGroup w.server user groupId (.returned (some doc)) false).state user
          groupId
          (.returned (some (storedGroupAfter doc
            (joinGroup w.server user groupId (.returned (some doc)) false).dbWrites)))
          saveThrows =
        { state := w.server, emits := [], dbWrites := []
          response := some ⟨200, .group (storedGroupAfter doc
            (joinGroup w.server user groupId (.returned (some doc)) false).dbWrites)⟩ }) := by
  constructor
  · have hnd := hr.inv.groups.members group (findGroup_mem _ _ _ hfind)
    by_cases hmem : group.members.contains user.id = true
    · have hout : joinGroup w.server user groupId .threw saveThrows =
          { state := w.server, emits := [], dbWrites := []
            response := some ⟨200, .group group⟩ } := by
        simp only [joinGroup, joinInMemory, hfind, if_pos hmem]
      rw [hout]
      exact ⟨group, hfind,
        count_eq_one_of_mem_nodup _ _ hnd ((contains_eq_true_iff _ _).mp hmem), rfl, hout⟩
    · have hnot : user.id ∉ group.members := fun h => hmem ((contains_eq_true_iff _ _).mpr h)
      have hout : joinGroup w.server user groupId .threw saveThrows =
          { state := { w.server with
              inMemoryGroups := pushMember w.server.inMemoryGroups groupId user.id }
            emits := [], dbWrites := []
            response :=
              some ⟨200, .group { group with members := group.members ++ [user.id] }⟩ } := by
        simp only [joinGroup, joinInMemory, hfind, if_neg hmem]
      rw [hout]
      have hfind1 : findGroup (pushMember w.server.inMemoryGroups groupId user.id) groupId =
          some { group with members := group.members ++ [user.id] } := by
        rw [findGroup_pushMember]
        simp [hfind]
      have hmem1 : ({ group with members := group.members ++ [user.id] } : Group).members.contains
          user.id = true := by
        simp
      refine ⟨{ group with members := group.members ++ [user.id] }, hfind1,
        count_push_of_not_mem _ _ hnot, rfl, ?_⟩
      simp only [joinGroup, joinInMemory, hfind1, if_pos hmem1]
  · by_cases hmem : doc.members.contains user.id = true
    · have hout : joinGroup w.server user groupId (.returned (some doc)) false =
          { state := w.server, emits := [], dbWrites := []
            response := some ⟨200, .group doc⟩ } := by
        simp only [joinGroup, if_pos hmem]
      rw [hout]
      refine ⟨count_eq_one_of_mem_nodup _ _ hdoc ((contains_eq_true_iff _ _).mp hmem),
        rfl, rfl, ?_⟩
      show joinGroup w.server user groupId (.returned (some doc)) saveThrows = _
      simp only [joinGroup, if_pos hmem]
      rfl
    · have hnot : user.id ∉ doc.members := fun h => hmem ((contains_eq_true_iff _ _).mpr h)
      have hout : joinGroup w.server user groupId (.returned (some doc)) false =
          { state := w.server, emits := []
            dbWrites := [.group { doc with members := doc.members ++ [user.id] } true]
            response :=
              some ⟨200, .group { doc with members := doc.members ++ [user.id] }⟩ } := by
        simp only [joinGroup, if_neg hmem]
        rfl
      rw [hout]
      have hmem1 : ({ doc with members := doc.members ++ [user.id] } : Group).members.contains
          user.id = true := by
        simp
      refine ⟨count_push_of_not_mem _ _ hnot, rfl, rfl, ?_⟩
      show joinGroup w.server user groupId
        (.returned (some { doc with members := doc.members ++ [user.id] })) saveThrows = _
      simp only [joinGroup, if_pos hmem1]
      rfl

/-- Witness for C6: `u2` joins the in-memory group `'everyone'` twice after `u1`
connected. -/
theorem join_twice_witness :
    ∃ joined,
      findGroup (joinGroup sampleWorld1.server ⟨"u2", "bob"⟩ "everyone" .threw
        false).state.inMemoryGroups "everyone" = some joined ∧
      joined.members.count "u2" = 1 ∧
      (joinGroup sampleWorld1.server ⟨"u2", "bob"⟩ "everyone" .threw false).response =
        some ⟨200, .group joined⟩ ∧
      joinGroup (joinGroup sampleWorld1.server ⟨"u2", "bob"⟩ "everyone" .threw false).state
          ⟨"u2", "bob"⟩ "everyone" .threw false =
        { state := (joinGroup sampleWorld1.server ⟨"u2", "bob"⟩ "everyone" .threw false).state
          emits := [], dbWrites := [], response := some ⟨200, .group joined⟩ } :=
  (join_twice sampleWorld1 (Reachable.step _ Reachable.initial (by decide)) ⟨"u2", "bob"⟩
    "everyone" ⟨"everyone", "Everyone", some "Public group for all users", ["u1"], none⟩
    ⟨"g1", "team", none, ["u1"], none⟩ false (by decide) (by decide)).1

/-! ## The reserved group -/

/-- Membership of the reserved group is kept along a run, and a `connection`
event of the run gives it. -/
theorem run_everyoneHas (evs : List Event) (w0 w : World) (userId : String)
    (hinv : Inv w0) (hrun : w0.run evs = some w)
    (h : EveryoneHas w0.server.inMemoryGroups userId ∨
      ∃ s, Event.connection s ∈ evs ∧ s.user.id = userId) :
    EveryoneHas w.server.inMemoryGroups userId := by
  induction evs generalizing w0 with
  | nil =>
    simp only [World.run, Option.some.injEq] at hrun
    subst hrun
    rcases h with h | ⟨s, hs, _⟩
    · exact h
    · simp at hs
  | cons ev rest ih =>
    by_cases hen : ev.enabled w0 = true
    · simp only [World.run, hen, if_true] at hrun
      apply ih (w0.after ev) (hinv.after ev hen) hrun
      rcases h with h | ⟨s, hs, hsu⟩
      · exact Or.inl (h.mono (handle_groupsStep w0.server ev))
      · rcases List.mem_cons.mp hs with hs | hs
        · subst hs
          subst hsu
          exact Or.inl (onConnection_everyoneHas w0.server s hinv.groups)
        · exact Or.inr ⟨s, hs, hsu⟩
    · simp [World.run, hen] at hrun

/-- A `connection` of an identity that is in the reserved group leaves
`inMemoryGroups` as it was. -/
theorem onConnection_groups_of_member (st : ServerState) (socket : Socket)
    (h : EveryoneHas st.inMemoryGroups socket.user.id) :
    (onConnection st socket).state.inMemoryGroups = st.inMemoryGroups := by
  obtain ⟨e, he, hmem⟩ := h
  have hc : e.members.contains socket.user.id = true := (contains_eq_true_iff _ _).mpr hmem
  simp only [onConnection, he, if_pos hc]

/-- C7: in every state that a run of events from the start reaches, an identity
that registered a connection during the run is a member of the group that
`inMemoryGroups` holds under the id `'everyone'`, exactly once; a further
connection of the same identity leaves `inMemoryGroups` as it is. -/
theorem everyone_has_connected (evs : List Event) (w : World) (socket : Socket)
    (hrun : World.initial.run evs = some w) (hconn : Event.connection socket ∈ evs) :
    (∃ g, findGroup w.server.inMemoryGroups "everyone" = some g ∧
      g.members.count socket.user.id = 1) ∧
    ∀ again : Socket, again.user.id = socket.user.id →
      (w.after (.connection again)).server.inMemoryGroups = w.server.inMemoryGroups := by
  have hhas : EveryoneHas w.server.inMemoryGroups socket.user.id :=
    run_everyoneHas evs World.initial w socket.user.id Inv.initial hrun
      (Or.inr ⟨socket, hconn, rfl⟩)
  have hinv : Inv w := (Reachable.run evs Reachable.initial hrun).inv
  constructor
  · obtain ⟨g, hg, hmem⟩ := hhas
    exact ⟨g, hg, count_eq_one_of_mem_nodup _ _
      (hinv.groups.members g (findGroup_mem _ _ _ hg)) hmem⟩
  · intro again hsame
    exact onConnection_groups_of_member w.server again (hsame ▸ hhas)

/-- Witness for C7: `u1` connects with `s1`, `u2` connects, `u1` connects again
with `s3`; `u1` is once in the reserved group. -/
theorem everyone_has_connected_witness :
    ∃ g, findGroup ((sampleWorld2.after (.connection sampleSocket3)).server.inMemoryGroups)
        "everyone" = some g ∧ g.members.count "u1" = 1 :=
  (everyone_has_connected
    [.connection sampleSocket1, .connection sampleSocket2, .connection sampleSocket3]
    (sampleWorld2.after (.connection sampleSocket3)) sampleSocket1 (by decide)
    (by decide)).1

/-- In a reachable world where `sender` is an open connection, u2 has an entry
in `connectedUsers` and u3 has no open connection, and when the durable lookup
throws, a `group message` of the sender to `'everyone'` is not rejected, the
registered connection of u2 gets it exactly once, and every emit goes to the
room of an open connection of an identity other than u3. -/
theorem everyone_message_when_lookup_throws (w : World) (hr : Reachable w)
    (sender : Socket) (hs : sender ∈ w.sockets) (u2 u3 : String) (entry : ConnectedUser)
    (hu2 : w.server.connectedUsers.get u2 = some entry)
    (hu3 : ∀ t ∈ w.sockets, t.user.id ≠ u3)
    (content : String) (now : Nat) (saveThrows : Bool) :
    (onGroupMessage w.server sender ⟨"everyone", content⟩ now .threw saveThrows).rejected =
      false ∧
    receivedEvent entry.socketId "group message"
        (onGroupMessage w.server sender ⟨"everyone", content⟩ now .threw saveThrows).emits =
      [⟨.room entry.socketId, "group message",
        .message (groupMessageOf sender ⟨"everyone", content⟩ now)⟩] ∧
    (∀ e ∈ (onGroupMessage w.server sender ⟨"everyone", content⟩ now .threw saveThrows).emits,
      ∃ t ∈ w.sockets, e.target = .room t.id ∧ t.user.id ≠ u3) ∧
    w.server.connectedUsers.get u3 = none := by
  have hinv := hr.inv
  obtain ⟨g, hg, hsender⟩ := hinv.joined sender hs
  have hlook : lookupGroup w.server "everyone" .threw = some g := hg
  have hnd : g.members.Nodup := hinv.groups.members g (findGroup_mem _ _ _ hg)
  have hmem2 : u2 ∈ g.members := by
    obtain ⟨_, t, ht, _, htu⟩ := hinv.socket_of_get hu2
    obtain ⟨g2, hg2, h2⟩ := hinv.joined t ht
    rw [hg] at hg2
    cases hg2
    exact htu ▸ h2
  rw [onGroupMessage_member w.server sender ⟨"everyone", content⟩ now .threw saveThrows g
    hlook hsender]
  refine ⟨fanOut_not_rejected _ _ _, ?_, ?_, ?_⟩
  · unfold receivedEvent
    rw [receivedBy_fanOut_one g.members w.server.connectedUsers _ u2 entry hnd hmem2 hu2
      (fun m1 _ hne e1 he1 hid => hne (hinv.registered_injective hu2 he1 hid))]
    simp
  · intro e he
    obtain ⟨_, _, m, _, member, hget, htarget⟩ := fanOut_event _ _ _ e he
    obtain ⟨_, t, ht, htid, _⟩ := hinv.socket_of_get hget
    exact ⟨t, ht, by rw [htarget, htid], hu3 t ht⟩
  · cases hget : w.server.connectedUsers.get u3 with
    | none => rfl
    | some e3 =>
      obtain ⟨_, t, ht, _, htu⟩ := hinv.socket_of_get hget
      exact absurd htu (hu3 t ht)

theorem JSMap.mem_keys_set_self {β : Type} (m : JSMap β) (k : String) (v : β) :
    k ∈ (m.set k v).keys := by
  by_contra h
  have hnone := (JSMap.get_eq_none_iff (m.set k v) k).mpr h
  rw [JSMap.get_set_self] at hnone
  cases hnone

theorem JSMap.mem_keys_set_of_mem {β : Type} (m : JSMap β) (k k1 : String) (v : β)
    (h : k1 ∈ m.keys) : k1 ∈ (m.set k v).keys := by
  by_cases hk : k = k1
  · subst hk
    exact JSMap.mem_keys_set_self m k v
  · by_contra hnot
    have hnone := (JSMap.get_eq_none_iff (m.set k v) k1).mpr hnot
    rw [JSMap.get_set_of_ne m k k1 v hk] at hnone
    exact (JSMap.get_eq_none_iff m k1).mp hnone h

theorem JSMap.mem_keys_delete_of_ne {β : Type} (m : JSMap β) (k k1 : String)
    (h : k1 ∈ m.keys) (hne : k1 ≠ k) : k1 ∈ (m.delete k).keys := by
  obtain ⟨p, hp, hpk⟩ := List.mem_map.mp h
  exact List.mem_map.mpr ⟨p, (JSMap.mem_delete m k p).mpr ⟨hp, hpk ▸ hne⟩, hpk⟩

theorem JSMap.get_of_mem_keys {β : Type} (m : JSMap β) (k : String) (h : k ∈ m.keys) :
    ∃ v, m.get k = some v := by
  cases hget : m.get k with
  | none => exact absurd h ((JSMap.get_eq_none_iff m k).mp hget)
  | some v => exact ⟨v, rfl⟩

/-- An identity that is registered stays registered over an event that is not
the disconnect of one of its sockets. -/
theorem keys_after (w : World) (ev : Event) (userId : String)
    (h : userId ∈ w.server.connectedUsers.keys)
    (hstay : ∀ t, ev = .disconnect t → t.user.id ≠ userId) :
    userId ∈ (w.after ev).server.connectedUsers.keys := by
  simp only [World.after]
  rw [handle_connectedUsers]
  cases ev with
  | connection socket => exact JSMap.mem_keys_set_of_mem _ _ _ _ h
  | disconnect socket =>
    exact JSMap.mem_keys_delete_of_ne _ _ _ h (fun e => hstay socket rfl e.symm)
  | privateMessage socket data now saveThrows => exact h
  | groupMessage socket data now found saveThrows => exact h
  | createGroup user body now documentId saveThrows => exact h
  | joinGroup user groupId found saveThrows => exact h
  | register body found hashedPassword now documentId saveThrows => exact h
  | createDemoUser found hashedPassword documentId saveThrows => exact h

/-- An open socket stays open over an event that is not its disconnect. -/
theorem socket_after (w : World) (ev : Event) (s : Socket) (h : s ∈ w.sockets)
    (hstay : ∀ t, ev = .disconnect t → t ≠ s) : s ∈ (w.after ev).sockets := by
  cases ev with
  | connection socket => exact List.mem_append_left _ h
  | disconnect socket =>
    exact (List.mem_erase_of_ne (fun e => hstay socket rfl e.symm)).mpr h
  | privateMessage socket data now saveThrows => exact h
  | groupMessage socket data now found saveThrows => exact h
  | createGroup user body now documentId saveThrows => exact h
  | joinGroup user groupId found saveThrows => exact h
  | register body found hashedPassword now documentId saveThrows => exact h
  | createDemoUser found hashedPassword documentId saveThrows => exact h

/-- The open sockets after an event were open before or are the socket of the
event, a `connection`. -/
theorem sockets_after_from (w : World) (ev : Event) (t : Socket)
    (h : t ∈ (w.after ev).sockets) : t ∈ w.sockets ∨ ev = .connection t := by
  cases ev with
  | connection socket =>
    simp only [World.after, socketsAfter, List.mem_append, List.mem_singleton] at h
    rcases h with h | h
    · exact Or.inl h
    · exact Or.inr (by rw [h])
  | disconnect socket => exact Or.inl (List.mem_of_mem_erase h)
  | privateMessage socket data now saveThrows => exact Or.inl h
  | groupMessage socket data now found saveThrows => exact Or.inl h
  | createGroup user body now documentId saveThrows => exact Or.inl h
  | joinGroup user groupId found saveThrows => exact Or.inl h
  | register body found hashedPassword now documentId saveThrows => exact Or.inl h
  | createDemoUser found hashedPassword documentId saveThrows => exact Or.inl h

/-- An identity that connected during a run, or was registered at its start, is
registered at its end when no socket of it disconnected during the run. -/
theorem run_registered (evs : List Event) (w0 w : World) (userId : String)
    (hrun : w0.run evs = some w)
    (hstay : ∀ t, Event.disconnect t ∈ evs → t.user.id ≠ userId)
    (h : userId ∈ w0.server.connectedUsers.keys ∨
      ∃ s, Event.connection s ∈ evs ∧ s.user.id = userId) :
    userId ∈ w.server.connectedUsers.keys := by
  induction evs generalizing w0 with
  | nil =>
    simp only [World.run, Option.some.injEq] at hrun
    subst hrun
    rcases h with h | ⟨s, hs, _⟩
    · exact h
    · simp at hs
  | cons ev rest ih =>
    by_cases hen : ev.enabled w0 = true
    · simp only [World.run, hen, if_true] at hrun
      apply ih (w0.after ev) hrun (fun t ht => hstay t (List.mem_cons_of_mem _ ht))
      rcases h with h | ⟨s, hs, hsu⟩
      · exact Or.inl (keys_after w0 ev userId h
          (fun t e => hstay t (e ▸ List.mem_cons_self _ _)))
      · rcases List.mem_cons.mp hs with hs | hs
        · subst hs
          subst hsu
          left
          simp only [World.after]
          rw [handle_connectedUsers]
          exact JSMap.mem_keys_set_self _ _ _
        · exact Or.inr ⟨s, hs, hsu⟩
    · simp [World.run, hen] at hrun

/-- A socket that connected during a run, or was open at its start, is open at
its end when it did not disconnect during the run. -/
theorem run_socket_open (evs : List Event) (w0 w : World) (s : Socket)
    (hrun : w0.run evs = some w) (hstay : Event.disconnect s ∉ evs)
    (h : s ∈ w0.sockets ∨ Event.connection s ∈ evs) : s ∈ w.sockets := by
  induction evs generalizing w0 with
  | nil =>
    simp only [World.run, Option.some.injEq] at hrun
    subst hrun
    rcases h with h | h
    · exact h
    · simp at h
  | cons ev rest ih =>
    by_cases hen : ev.enabled w0 = true
    · simp only [World.run, hen, if_true] at hrun
      apply ih (w0.after ev) hrun (fun ht => hstay (List.mem_cons_of_mem _ ht))
      rcases h with h | h
      · refine Or.inl (socket_after w0 ev s h ?_)
        intro t e hts
        apply hstay
        rw [e, hts]
        exact List.mem_cons_self _ _
      · rcases List.mem_cons.mp h with h | h
        · subst h
          left
          simp [World.after, socketsAfter]
        · exact Or.inr h
    · simp [World.run, hen] at hrun

/-- The sockets that are open at the end of a run were open at its start or
connected during the run. -/
theorem run_sockets_from (evs : List Event) (w0 w : World) (hrun : w0.run evs = some w)
    (t : Socket) (h : t ∈ w.sockets) : t ∈ w0.sockets ∨ Event.connection t ∈ evs := by
  induction evs generalizing w0 with
  | nil =>
    simp only [World.run, Option.some.injEq] at hrun
    subst hrun
    exact Or.inl h
  | cons ev rest ih =>
    by_cases hen : ev.enabled w0 = true
    · simp only [World.run, hen, if_true] at hrun
      rcases ih (w0.after ev) hrun with h1 | h1
      · rcases sockets_after_from w0 ev t h1 with h2 | h2
        · exact Or.inl h2
        · exact Or.inr (h2 ▸ List.mem_cons_self _ _)
      · exact Or.inr (List.mem_cons_of_mem _ h1)
    · simp [World.run, hen] at hrun

/-- The lookup of the id `'everyone'` throws, whatever the store would do. -/
theorem groupFindById_everyone (store : DbResult (Option Group)) :
    groupFindById "everyone" store = .threw := by
  have hcast : castsToObjectId "everyone" = false := by decide
  simp only [groupFindById, hcast]
  rfl

/-- C8: in the state that a run of events from the start reaches, where the
sockets s1 of u1 and s2 of u2 connected, no socket of u1 or u2 disconnected and
no socket of u3 ever connected, and whatever the durable store does with the
lookup: s1 is open, a `group message` of s1 to `'everyone'` is not rejected, the
connection registered for u2 (an open socket of u2, which is s2 when u2
connected once) gets it exactly once, every emit goes to the room of an open
connection of an identity other than u3, and u3 has no open connection and no
entry in `connectedUsers`. -/
theorem everyone_message_delivered (evs : List Event) (w : World) (s1 s2 : Socket)
    (u3 : String) (hrun : World.initial.run evs = some w)
    (h1 : Event.connection s1 ∈ evs) (h2 : Event.connection s2 ∈ evs)
    (hstay : ∀ t, Event.disconnect t ∈ evs →
      t.user.id ≠ s1.user.id ∧ t.user.id ≠ s2.user.id)
    (hnever : ∀ t, Event.connection t ∈ evs → t.user.id ≠ u3)
    (store : DbResult (Option Group)) (content : String) (now : Nat) (saveThrows : Bool) :
    s1 ∈ w.sockets ∧
    (onGroupMessage w.server s1 ⟨"everyone", content⟩ now
      (groupFindById "everyone" store) saveThrows).rejected = false ∧
    (∃ registered, w.server.connectedUsers.get s2.user.id = some registered ∧
      (∃ t ∈ w.sockets, t.id = registered.socketId ∧ t.user.id = s2.user.id) ∧
      ((∀ t, Event.connection t ∈ evs → t.user.id = s2.user.id → t = s2) →
        registered.socketId = s2.id) ∧
      receivedEvent registered.socketId "group message"
          (onGroupMessage w.server s1 ⟨"everyone", content⟩ now
            (groupFindById "everyone" store) saveThrows).emits =
        [⟨.room registered.socketId, "group message",
          .message (groupMessageOf s1 ⟨"everyone", content⟩ now)⟩]) ∧
    (∀ e ∈ (onGroupMessage w.server s1 ⟨"everyone", content⟩ now
        (groupFindById "everyone" store) saveThrows).emits,
      ∃ t ∈ w.sockets, e.target = .room t.id ∧ t.user.id ≠ u3) ∧
    (∀ t ∈ w.sockets, t.user.id ≠ u3) ∧
    w.server.connectedUsers.get u3 = none := by
  have hr : Reachable w := Reachable.run evs Reachable.initial hrun
  have hopen : s1 ∈ w.sockets :=
    run_socket_open evs World.initial w s1 hrun
      (fun hd => (hstay s1 hd).1 rfl) (Or.inr h1)
  have hkey : s2.user.id ∈ w.server.connectedUsers.keys :=
    run_registered evs World.initial w s2.user.id hrun (fun t ht => (hstay t ht).2)
      (Or.inr ⟨s2, h2, rfl⟩)
  obtain ⟨registered, hget⟩ := JSMap.get_of_mem_keys _ _ hkey
  have hfrom : ∀ t ∈ w.sockets, Event.connection t ∈ evs := by
    intro t ht
    rcases run_sockets_from evs World.initial w hrun t ht with h | h
    · simp [World.initial] at h
    · exact h
  have hu3 : ∀ t ∈ w.sockets, t.user.id ≠ u3 := fun t ht => hnever t (hfrom t ht)
  obtain ⟨t, ht, htid, htu⟩ := (hr.inv.socket_of_get hget).2
  rw [groupFindById_everyone]
  obtain ⟨hrej, hrecv, htargets, hnone⟩ :=
    everyone_message_when_lookup_throws w hr s1 hopen s2.user.id u3 registered hget hu3
      content now saveThrows
  refine ⟨hopen, hrej, ⟨registered, hget, ⟨t, ht, htid, htu⟩, ?_, hrecv⟩, htargets, hu3,
    hnone⟩
  intro honce
  rw [← htid, honce t (hfrom t ht) htu]

/-- Witness for C8: `u1` and `u2` connected, `u3` did not, and the store would
answer the lookup with no group. -/
theorem everyone_message_delivered_witness :
    sampleSocket1 ∈ sampleWorld2.sockets ∧
    (onGroupMessage sampleWorld2.server sampleSocket1 ⟨"everyone", "hello"⟩ 7
      (groupFindById "everyone" (.returned none)) true).rejected = false ∧
    ∀ e ∈ (onGroupMessage sampleWorld2.server sampleSocket1 ⟨"everyone", "hello"⟩ 7
        (groupFindById "everyone" (.returned none)) true).emits,
      ∃ t ∈ sampleWorld2.sockets, e.target = .room t.id ∧ t.user.id ≠ "u3" :=
  have h := everyone_message_delivered
    [.connection sampleSocket1, .connection sampleSocket2] sampleWorld2
    sampleSocket1 sampleSocket2 "u3" (by decide) (by decide) (by decide)
    (by intro t ht; simp at ht)
    (by
      intro t ht
      simp only [List.mem_cons, Event.connection.injEq, List.mem_singleton] at ht
      rcases ht with ht | ht | ht
      · rw [ht]; decide
      · rw [ht]; decide
      · simp at ht)
    (.returned none) "hello" 7 true
  ⟨h.1, h.2.1, h.2.2.2.1⟩

/-! ## Presence broadcasts -/

theorem JSMap.values_set_of_not_mem {β : Type} (m : JSMap β) (k : String) (v : β)
    (h : k ∉ m.keys) : (m.set k v).values = m.values ++ [v] := by
  induction m with
  | nil => rfl
  | cons p rest ih =>
    obtain ⟨k0, v0⟩ := p
    simp only [JSMap.keys, List.map_cons, List.mem_cons, not_or] at h
    have h0 : ¬ k0 = k := fun e => h.1 e.symm
    simp only [JSMap.set, if_neg h0, JSMap.values, List.map_cons, List.cons_append,
      List.cons.injEq, true_and]
    exact ih h.2

/-- The entries of the presence map after a `connection`, each under the id it
carries. -/
theorem onConnection_entries {w : World} (hinv : Inv w) (socket : Socket) :
    ∀ p ∈ (onConnection w.server socket).state.connectedUsers, p.2.id = p.1 := by
  intro p hp
  rcases JSMap.mem_set _ _ _ _ hp with h | h
  · rw [h]
  · exact (hinv.entries p.1 p.2 h).1

/-- C11: a connect emits exactly one `users` event and a disconnect exactly one
emit, a `users` event; each goes to all sockets and carries the values of
`connectedUsers` after the change, in insertion order (a new identity goes
last). After a connect the roster holds the connecting identity exactly once,
after a disconnect it does not hold the disconnected identity. From an empty
registry, the connects of two different identities broadcast the roster of the
first and then the roster of the first and the second. -/
theorem presence_broadcasts (w : World) (hr : Reachable w) (socket other : Socket) :
    ((onConnection w.server socket).emits.filter (fun e => decide (e.event = "users")) =
        [⟨.all, "users", .users (onConnection w.server socket).state.connectedUsers.values⟩] ∧
      (∀ sid, receivedEvent sid "users" (onConnection w.server socket).emits =
        [⟨.all, "users", .users (onConnection w.server socket).state.connectedUsers.values⟩]) ∧
      (onConnection w.server socket).state.connectedUsers.values.filter
          (fun e => decide (e.id = socket.user.id)) =
        [⟨socket.user.id, socket.user.username, socket.id⟩] ∧
      (socket.user.id ∉ w.server.connectedUsers.keys →
        (onConnection w.server socket).state.connectedUsers.values =
          w.server.connectedUsers.values ++
            [⟨socket.user.id, socket.user.username, socket.id⟩])) ∧
    ((onDisconnect w.server socket).emits =
        [⟨.all, "users", .users (onDisconnect w.server socket).state.connectedUsers.values⟩] ∧
      (∀ sid, receivedEvent sid "users" (onDisconnect w.server socket).emits =
        [⟨.all, "users", .users (onDisconnect w.server socket).state.connectedUsers.values⟩]) ∧
      (onDisconnect w.server socket).state.connectedUsers.values =
        (w.server.connectedUsers.filter (fun p => decide (p.1 ≠ socket.user.id))).map
          (fun p => p.2) ∧
      ∀ e ∈ (onDisconnect w.server socket).state.connectedUsers.values,
        e.id ≠ socket.user.id) ∧
    (w.server.connectedUsers = [] → socket.user.id ≠ other.user.id →
      (onConnection w.server socket).emits.filter (fun e => decide (e.event = "users")) =
        [⟨.all, "users", .users [⟨socket.user.id, socket.user.username, socket.id⟩]⟩] ∧
      (onConnection (onConnection w.server socket).state other).emits.filter
          (fun e => decide (e.event = "users")) =
        [⟨.all, "users", .users [⟨socket.user.id, socket.user.username, socket.id⟩,
          ⟨other.user.id, other.user.username, other.id⟩]⟩]) := by
  have hinv := hr.inv
  refine ⟨⟨?_, ?_, ?_, ?_⟩, ⟨rfl, ?_, rfl, ?_⟩, ?_⟩
  · simp [onConnection]
  · intro sid
    simp [onConnection, receivedEvent, receivedBy, Emit.reaches]
  · have hfilter := JSMap.filter_key_set w.server.connectedUsers socket.user.id
      (⟨socket.user.id, socket.user.username, socket.id⟩ : ConnectedUser) hinv.keys
    have hcongr : (onConnection w.server socket).state.connectedUsers.filter
          (fun p => decide (p.2.id = socket.user.id)) =
        (onConnection w.server socket).state.connectedUsers.filter
          (fun p => decide (p.1 = socket.user.id)) := by
      apply List.filter_congr
      intro p hp
      rw [onConnection_entries hinv socket p hp]
    have hvalues : (onConnection w.server socket).state.connectedUsers.values.filter
          (fun e => decide (e.id = socket.user.id)) =
        ((onConnection w.server socket).state.connectedUsers.filter
          (fun p => decide (p.2.id = socket.user.id))).map (fun p => p.2) := by
      simp only [JSMap.values, List.filter_map]
      rfl
    rw [hvalues, hcongr]
    show (((w.server.connectedUsers.set socket.user.id _).filter _).map _) = _
    rw [hfilter]
    rfl
  · intro hnot
    exact JSMap.values_set_of_not_mem _ _ _ hnot
  · intro sid
    simp [onDisconnect, receivedEvent, receivedBy, Emit.reaches]
  · intro e he
    obtain ⟨p, hp, hpe⟩ := List.mem_map.mp he
    obtain ⟨hmem, hne⟩ := (JSMap.mem_delete _ _ _).mp hp
    have hid := (hinv.entries p.1 p.2 hmem).1
    rw [← hpe, hid]
    exact hne
  · intro hempty hne
    simp [onConnection, hempty, JSMap.set, JSMap.values, hne]

/-- Witness for C11: from the start `u1` connects and then `u2`. -/
theorem presence_broadcasts_witness :
    (onConnection World.initial.server sampleSocket1).emits.filter
        (fun e => decide (e.event = "users")) =
      [⟨.all, "users", .users [⟨"u1", "alice", "s1"⟩]⟩] ∧
    (onConnection (onConnection World.initial.server sampleSocket1).state
        sampleSocket2).emits.filter (fun e => decide (e.event = "users")) =
      [⟨.all, "users", .users [⟨"u1", "alice", "s1"⟩, ⟨"u2", "bob", "s2"⟩]⟩] :=
  (presence_broadcasts World.initial Reachable.initial sampleSocket1 sampleSocket2).2.2
    rfl (by decide)

/-! ## Fallback to the in-memory collections -/

/-- The registration of a free username with a password when the save throws. -/
theorem register_save_throws (st : ServerState) (body : RegisterBody)
    (found : DbResult (Option StoredUser)) (hashedPassword : String) (now : Nat)
    (documentId : String) (password : String)
    (hfree : lookupUser st body.username found = none)
    (hpassword : body.password = some password) :
    register st body found hashedPassword now documentId true =
      { state := { st with inMemoryUsers :=
          st.inMemoryUsers ++ [⟨toString now, body.username, hashedPassword⟩] }
        emits := []
        dbWrites := [.user ⟨documentId, body.username, hashedPassword⟩ false]
        response := some ⟨201, .session ⟨⟨toString now, body.username⟩, "1h"⟩
          (toString now) body.username⟩ } := by
  simp only [register, hfree, hpassword]
  rfl

/-- The creation of a named group when the save throws. -/
theorem createGroup_save_throws (st : ServerState) (user : User) (body : CreateGroupBody)
    (now : Nat) (documentId : String) (name : String) (hname : body.name = some name)
    (hne : name ≠ "") :
    createGroup st user body now documentId true =
      { state := { st with inMemoryGroups := st.inMemoryGroups ++
          [⟨toString now, name, body.description, [user.id], some now⟩] }
        emits := []
        dbWrites := [.group ⟨documentId, name, body.description, [user.id], some now⟩ false]
        response := some ⟨201, .group
          ⟨toString now, name, body.description, [user.id], some now⟩⟩ } := by
  simp only [createGroup, hname, if_neg hne]
  rfl

/-- C12: when the durable save throws, each of the four operations goes on. The
registration of a free username appends one user with that username to
`inMemoryUsers` and answers 201 with its id and username; the creation of a
group appends one group with the given name and description and the creator as
only member to `inMemoryGroups` and answers 201 with that group; the two message
handlers append the message (senderId, recipientId, content, isGroupMessage as
given to the save) to `inMemoryMessages` and emit no `error`. -/
theorem save_failure_falls_back (st : ServerState) :
    (∀ (body : RegisterBody) (found : DbResult (Option StoredUser))
        (hashedPassword : String) (now : Nat) (documentId password : String),
      lookupUser st body.username found = none → body.password = some password →
      ∃ newUser : StoredUser, newUser.username = body.username ∧
        (register st body found hashedPassword now documentId true).state.inMemoryUsers =
          st.inMemoryUsers ++ [newUser] ∧
        (register st body found hashedPassword now documentId true).response =
          some ⟨201, .session ⟨⟨newUser.id, newUser.username⟩, "1h"⟩
            newUser.id newUser.username⟩) ∧
    (∀ (user : User) (body : CreateGroupBody) (now : Nat) (documentId name : String),
      body.name = some name → name ≠ "" →
      ∃ newGroup : Group, newGroup.name = name ∧ newGroup.description = body.description ∧
        newGroup.members = [user.id] ∧
        (createGroup st user body now documentId true).state.inMemoryGroups =
          st.inMemoryGroups ++ [newGroup] ∧
        (createGroup st user body now documentId true).response =
          some ⟨201, .group newGroup⟩) ∧
    (∀ (socket : Socket) (data : PrivateMessageData) (now : Nat),
      ∃ message : Message,
        message.senderId = socket.user.id ∧ message.recipientId = data.recipientId ∧
        message.content = data.content ∧ message.isGroupMessage = false ∧
        (onPrivateMessage st socket data now true).dbWrites =
          [.message ⟨message.senderId, message.recipientId, message.content,
            message.isGroupMessage⟩ false] ∧
        (onPrivateMessage st socket data now true).state.inMemoryMessages =
          st.inMemoryMessages ++ [message] ∧
        (onPrivateMessage st socket data now true).rejected = false) ∧
    (∀ (socket : Socket) (data : GroupMessageData) (now : Nat)
        (found : DbResult (Option Group)) (group : Group),
      lookupGroup st data.groupId found = some group → socket.user.id ∈ group.members →
      ∃ message : Message,
        message.senderId = socket.user.id ∧ message.recipientId = data.groupId ∧
        message.content = data.content ∧ message.isGroupMessage = true ∧
        (onGroupMessage st socket data now found true).dbWrites =
          [.message ⟨message.senderId, message.recipientId, message.content,
            message.isGroupMessage⟩ false] ∧
        (onGroupMessage st socket data now found true).state.inMemoryMessages =
          st.inMemoryMessages ++ [message] ∧
        (onGroupMessage st socket data now found true).rejected = false) := by
  refine ⟨?_, ?_, ?_, ?_⟩
  · intro body found hashedPassword now documentId password hfree hpassword
    rw [register_save_throws st body found hashedPassword now documentId password hfree
      hpassword]
    exact ⟨⟨toString now, body.username, hashedPassword⟩, rfl, rfl, rfl⟩
  · intro user body now documentId name hname hne
    rw [createGroup_save_throws st user body now documentId name hname hne]
    exact ⟨⟨toString now, name, body.description, [user.id], some now⟩, rfl, rfl, rfl, rfl,
      rfl⟩
  · intro socket data now
    refine ⟨privateMessageOf socket data now, rfl, rfl, rfl, rfl, rfl, rfl, ?_⟩
    unfold Outcome.rejected
    rw [onPrivateMessage_emits]
    cases st.connectedUsers.get data.recipientId <;> simp
  · intro socket data now found group hlook hmem
    rw [onGroupMessage_member st socket data now found true group hlook hmem]
    exact ⟨groupMessageOf socket data now, rfl, rfl, rfl, rfl, rfl, rfl,
      fanOut_not_rejected _ _ _⟩

/-- Witness for C12: `bob` registers while the durable store is down. -/
theorem save_failure_falls_back_witness :
    ∃ newUser : StoredUser, newUser.username = "bob" ∧
      (register ServerState.initial ⟨"bob", some "pw"⟩ .threw "hash" 5 "d1"
        true).state.inMemoryUsers = ServerState.initial.inMemoryUsers ++ [newUser] ∧
      (register ServerState.initial ⟨"bob", some "pw"⟩ .threw "hash" 5 "d1" true).response =
        some ⟨201, .session ⟨⟨newUser.id, newUser.username⟩, "1h"⟩
          newUser.id newUser.username⟩ :=
  (save_failure_falls_back ServerState.initial).1 ⟨"bob", some "pw"⟩ .threw "hash" 5 "d1"
    "pw" (by decide) rfl

/-! ## Delivery does not wait for persistence -/

theorem fanOut_withoutTimestamp (members : List String)
    (connectedUsers : JSMap ConnectedUser) (message : Message) :
    (fanOut members connectedUsers message).map Emit.withoutTimestamp =
      fanOut members connectedUsers { message with timestamp := 0 } := by
  induction members with
  | nil => rfl
  | cons a rest ih =>
    cases hget : connectedUsers.get a with
    | none => simpa only [fanOut, hget] using ih
    | some member =>
      simp only [fanOut, hget, List.map_cons, ih]
      rfl

/-- The emits of the `group message` handler, whatever the save did. -/
theorem onGroupMessage_emits (st : ServerState) (socket : Socket) (data : GroupMessageData)
    (now : Nat) (found : DbResult (Option Group)) (saveThrows : Bool) :
    (onGroupMessage st socket data now found saveThrows).emits =
      match lookupGroup st data.groupId found with
      | none => [⟨.socket socket.id, "error", .error "Group not found"⟩]
      | some group =>
        if group.members.contains socket.user.id then
          fanOut group.members st.connectedUsers (groupMessageOf socket data now)
        else [⟨.socket socket.id, "error", .error "You are not a member of this group"⟩] := by
  unfold onGroupMessage
  cases lookupGroup st data.groupId found with
  | none => rfl
  | some group =>
    by_cases hmem : group.members.contains socket.user.id = true
    · simp only [if_pos hmem]
      cases saveThrows <;> rfl
    · simp only [if_neg hmem]

/-- C13: for every state and every private or group message, the emits of the
handler are the same whether the durable save goes through or throws; and when
the two runs also differ in the clock, the emits are the same up to the
timestamp of the message. -/
theorem delivery_independent_of_save (st : ServerState) (socket : Socket)
    (privateData : PrivateMessageData) (groupData : GroupMessageData)
    (found : DbResult (Option Group)) (now later : Nat) :
    (onPrivateMessage st socket privateData now true).emits =
      (onPrivateMessage st socket privateData now false).emits ∧
    (onGroupMessage st socket groupData now found true).emits =
      (onGroupMessage st socket groupData now found false).emits ∧
    (onPrivateMessage st socket privateData now true).emits.map Emit.withoutTimestamp =
      (onPrivateMessage st socket privateData later false).emits.map Emit.withoutTimestamp ∧
    (onGroupMessage st socket groupData now found true).emits.map Emit.withoutTimestamp =
      (onGroupMessage st socket groupData later found false).emits.map
        Emit.withoutTimestamp := by
  refine ⟨?_, ?_, ?_, ?_⟩
  · rw [onPrivateMessage_emits, onPrivateMessage_emits]
  · rw [onGroupMessage_emits, onGroupMessage_emits]
  · rw [onPrivateMessage_emits, onPrivateMessage_emits]
    cases st.connectedUsers.get privateData.recipientId <;> rfl
  · rw [onGroupMessage_emits, onGroupMessage_emits]
    cases lookupGroup st groupData.groupId found with
    | none => rfl
    | some group =>
      by_cases hmem : group.members.contains socket.user.id = true
      · simp only [if_pos hmem, fanOut_withoutTimestamp]
        rfl
      · simp only [if_neg hmem]

/-! ## Resolution of the recipient -/

theorem findGroup_id (groups : List Group) (groupId : String) (g : Group)
    (h : findGroup groups groupId = some g) : g.id = groupId := by
  have := List.find?_some h
  simpa using this

/-- C14 as stated fails: `u1` is the only identity that the server knows (no user
in memory, no other connection, no group called `ghost`), it writes to the
recipientId `ghost`, and the message is saved (in memory when the save throws,
by the durable save otherwise) and echoed. -/
theorem private_message_to_unknown_recipient :
    sampleWorld1.server.inMemoryUsers = [] ∧
    sampleWorld1.server.connectedUsers.keys = ["u1"] ∧
    findGroup sampleWorld1.server.inMemoryGroups "ghost" = none ∧
    (onPrivateMessage sampleWorld1.server sampleSocket1 ⟨"ghost", "hi"⟩ 7
        true).state.inMemoryMessages = [⟨"u1", "alice", "ghost", "hi", 7, false⟩] ∧
    (onPrivateMessage sampleWorld1.server sampleSocket1 ⟨"ghost", "hi"⟩ 7 false).dbWrites =
      [.message ⟨"u1", "ghost", "hi", false⟩ true] ∧
    (onPrivateMessage sampleWorld1.server sampleSocket1 ⟨"ghost", "hi"⟩ 7 false).emits =
      [⟨.socket "s1", "private message",
        .message ⟨"u1", "alice", "ghost", "hi", 7, false⟩⟩] :=
  ⟨by decide, by decide, by decide, by decide, by decide, by decide⟩

/-- C14 (amended): a message that the `group message` handler saves or emits has
as recipientId a group id that the lookup resolved to a group with the sender
among its members, and a group found in memory has that id; the
`private message` handler resolves nothing: for every recipientId it saves one
message with that recipientId and echoes it to the sender. -/
theorem message_recipient_resolution (st : ServerState) (socket : Socket) (now : Nat)
    (saveThrows : Bool) :
    (∀ (data : GroupMessageData) (found : DbResult (Option Group)),
      ((onGroupMessage st socket data now found saveThrows).dbWrites ≠ [] ∨
        (onGroupMessage st socket data now found saveThrows).state.inMemoryMessages ≠
          st.inMemoryMessages ∨
        ∃ e ∈ (onGroupMessage st socket data now found saveThrows).emits,
          e.event = "group message") →
      ∃ group, lookupGroup st data.groupId found = some group ∧
        socket.user.id ∈ group.members ∧
        (found = .threw → group.id = data.groupId ∧ group ∈ st.inMemoryGroups)) ∧
    (∀ data : PrivateMessageData,
      (onPrivateMessage st socket data now saveThrows).dbWrites =
        [.message ⟨socket.user.id, data.recipientId, data.content, false⟩ (!saveThrows)] ∧
      (saveThrows = true →
        (onPrivateMessage st socket data now saveThrows).state.inMemoryMessages =
          st.inMemoryMessages ++ [privateMessageOf socket data now]) ∧
      (⟨.socket socket.id, "private message", .message (privateMessageOf socket data now)⟩ :
        Emit) ∈ (onPrivateMessage st socket data now saveThrows).emits ∧
      (privateMessageOf socket data now).recipientId = data.recipientId) := by
  constructor
  · intro data found hcreated
    cases hlook : lookupGroup st data.groupId found with
    | none =>
      rw [onGroupMessage_no_group st socket data now found saveThrows hlook] at hcreated
      rcases hcreated with h | h | ⟨e, he, hev⟩
      · exact absurd rfl h
      · exact absurd rfl h
      · simp only [List.mem_singleton] at he
        subst he
        exact absurd (show "error" = "group message" from hev) (by decide)
    | some group =>
      by_cases hmem : socket.user.id ∈ group.members
      · refine ⟨group, rfl, hmem, ?_⟩
        intro hthrew
        subst hthrew
        exact ⟨findGroup_id _ _ _ hlook, findGroup_mem _ _ _ hlook⟩
      · rw [onGroupMessage_not_member st socket data now found saveThrows group hlook hmem]
          at hcreated
        rcases hcreated with h | h | ⟨e, he, hev⟩
        · exact absurd rfl h
        · exact absurd rfl h
        · simp only [List.mem_singleton] at he
          subst he
          exact absurd (show "error" = "group message" from hev) (by decide)
  · intro data
    refine ⟨rfl, ?_, ?_, rfl⟩
    · intro h
      subst h
      rfl
    · rw [onPrivateMessage_emits]
      simp

/-- Witness for C14 (amended): the message of `u1` to `ghost` is saved in memory
when the save throws. -/
theorem message_recipient_resolution_witness :
    (onPrivateMessage sampleWorld1.server sampleSocket1 ⟨"ghost", "hi"⟩ 7
        true).state.inMemoryMessages =
      sampleWorld1.server.inMemoryMessages ++
        [privateMessageOf sampleSocket1 ⟨"ghost", "hi"⟩ 7] :=
  ((message_recipient_resolution sampleWorld1.server sampleSocket1 7 true).2
    ⟨"ghost", "hi"⟩).2.1 rfl

/-! ## Members without duplicates -/

/-- C15: in every reachable state no group of `inMemoryGroups` has the same id
twice among its members; the reachable states are those that any sequence of
connections, group creations, joins and the other events leads to, whatever the
durable store does. -/
theorem members_without_duplicates (w : World) (hr : Reachable w) :
    ∀ g ∈ w.server.inMemoryGroups, g.members.Nodup :=
  hr.inv.groups.members

/-- Witness for C15: the reserved group in the state after `u1` and `u2`
connected. -/
theorem members_without_duplicates_witness :
    (⟨"everyone", "Everyone", some "Public group for all users", ["u1", "u2"], none⟩ :
      Group).members.Nodup :=
  members_without_duplicates sampleWorld2
    (Reachable.step _ (Reachable.step _ Reachable.initial (by decide)) (by decide))
    ⟨"everyone", "Everyone", some "Public group for all users", ["u1", "u2"], none⟩
    (by decide)

/-! ## The frame of a join -/

theorem pushMember_split (groups : List Group) (groupId userId : String) (g : Group)
    (h : findGroup groups groupId = some g) :
    ∃ pre post, groups = pre ++ g :: post ∧ (∀ x ∈ pre, x.id ≠ groupId) ∧
      pushMember groups groupId userId =
        pre ++ { g with members := g.members ++ [userId] } :: post := by
  induction groups with
  | nil => simp [findGroup] at h
  | cons a rest ih =>
    by_cases ha : a.id = groupId
    · have hag : a = g := by
        simpa [findGroup, List.find?_cons, ha] using h
      subst hag
      exact ⟨[], rest, rfl, by simp, by simp only [pushMember, if_pos ha, List.nil_append]⟩
    · have hrest : findGroup rest groupId = some g := by
        simpa [findGroup, List.find?_cons, ha] using h
      obtain ⟨pre, post, h1, h2, h3⟩ := ih hrest
      refine ⟨a :: pre, post, by rw [h1]; rfl, ?_, ?_⟩
      · intro x hx
        rcases List.mem_cons.mp hx with hx | hx
        · rw [hx]
          exact ha
        · exact h2 x hx
      · simp only [pushMember, if_neg ha, h3, List.cons_append]

/-- What the in-memory join leaves of the state. -/
theorem joinInMemory_frame (st : ServerState) (user : User) (groupId : String)
    (dbWrites : List DbWrite) :
    ((joinInMemory st user groupId dbWrites).state.inMemoryGroups = st.inMemoryGroups ∨
      ∃ pre g post, st.inMemoryGroups = pre ++ g :: post ∧ g.id = groupId ∧
        (∀ x ∈ pre, x.id ≠ groupId) ∧ user.id ∉ g.members ∧
        (joinInMemory st user groupId dbWrites).state.inMemoryGroups =
          pre ++ { g with members := g.members ++ [user.id] } :: post) ∧
    (joinInMemory st user groupId dbWrites).state.inMemoryUsers = st.inMemoryUsers ∧
    (joinInMemory st user groupId dbWrites).state.inMemoryMessages = st.inMemoryMessages ∧
    (joinInMemory st user groupId dbWrites).state.connectedUsers = st.connectedUsers ∧
    (joinInMemory st user groupId dbWrites).dbWrites = dbWrites := by
  cases hfind : findGroup st.inMemoryGroups groupId with
  | none =>
    have hout : joinInMemory st user groupId dbWrites =
        { state := st, emits := [], dbWrites := dbWrites
          response := some ⟨404, .message "Group not found"⟩ } := by
      simp only [joinInMemory, hfind]
    rw [hout]
    exact ⟨Or.inl rfl, rfl, rfl, rfl, rfl⟩
  | some g =>
    by_cases hmem : g.members.contains user.id = true
    · have hout : joinInMemory st user groupId dbWrites =
          { state := st, emits := [], dbWrites := dbWrites
            response := some ⟨200, .group g⟩ } := by
        simp only [joinInMemory, hfind, if_pos hmem]
      rw [hout]
      exact ⟨Or.inl rfl, rfl, rfl, rfl, rfl⟩
    · have hout : joinInMemory st user groupId dbWrites =
          { state := { st with
              inMemoryGroups := pushMember st.inMemoryGroups groupId user.id }
            emits := [], dbWrites := dbWrites
            response :=
              some ⟨200, .group { g with members := g.members ++ [user.id] }⟩ } := by
        simp only [joinInMemory, hfind, if_neg hmem]
      rw [hout]
      refine ⟨Or.inr ?_, rfl, rfl, rfl, rfl⟩
      obtain ⟨pre, post, h1, h2, h3⟩ := pushMember_split _ groupId user.id g hfind
      exact ⟨pre, g, post, h1, findGroup_id _ _ _ hfind, h2,
        fun h => hmem ((contains_eq_true_iff _ _).mpr h), h3⟩

/-- C16: a join of a group id that the lookup resolves to no group answers 404
`Group not found` and changes nothing; any join leaves `inMemoryGroups` as it
was or pushes the caller on the members of one group with that id, the first
one, leaving the other groups, the users, the messages and the presence map as
they were, and it attempts at most one durable write, of the document that the
lookup returned with the caller pushed on its members. -/
theorem join_not_found_and_frame (st : ServerState) (user : User) (groupId : String)
    (found : DbResult (Option Group)) (saveThrows : Bool) :
    (lookupGroup st groupId found = none →
      joinGroup st user groupId found saveThrows =
        { state := st, emits := [], dbWrites := []
          response := some ⟨404, .message "Group not found"⟩ }) ∧
    ((joinGroup st user groupId found saveThrows).state.inMemoryGroups = st.inMemoryGroups ∨
      ∃ pre g post, st.inMemoryGroups = pre ++ g :: post ∧ g.id = groupId ∧
        (∀ x ∈ pre, x.id ≠ groupId) ∧ user.id ∉ g.members ∧
        (joinGroup st user groupId found saveThrows).state.inMemoryGroups =
          pre ++ { g with members := g.members ++ [user.id] } :: post) ∧
    (joinGroup st user groupId found saveThrows).state.inMemoryUsers = st.inMemoryUsers ∧
    (joinGroup st user groupId found saveThrows).state.inMemoryMessages =
      st.inMemoryMessages ∧
    (joinGroup st user groupId found saveThrows).state.connectedUsers = st.connectedUsers ∧
    ((joinGroup st user groupId found saveThrows).dbWrites = [] ∨
      ∃ doc, found = .returned (some doc) ∧ user.id ∉ doc.members ∧
        (joinGroup st user groupId found saveThrows).dbWrites =
          [.group { doc with members := doc.members ++ [user.id] } (!saveThrows)]) := by
  cases found with
  | threw =>
    have hframe := joinInMemory_frame st user groupId []
    refine ⟨?_, hframe.1, hframe.2.1, hframe.2.2.1, hframe.2.2.2.1, Or.inl hframe.2.2.2.2⟩
    intro hnone
    have hfind : findGroup st.inMemoryGroups groupId = none := hnone
    simp only [joinGroup, joinInMemory, hfind]
  | returned value =>
    cases value with
    | none => exact ⟨fun _ => rfl, Or.inl rfl, rfl, rfl, rfl, Or.inl rfl⟩
    | some doc =>
      refine ⟨fun h => by simp [lookupGroup] at h, ?_⟩
      by_cases hmem : doc.members.contains user.id = true
      · have hout : joinGroup st user groupId (.returned (some doc)) saveThrows =
            { state := st, emits := [], dbWrites := []
              response := some ⟨200, .group doc⟩ } := by
          simp only [joinGroup, if_pos hmem]
        rw [hout]
        exact ⟨Or.inl rfl, rfl, rfl, rfl, Or.inl rfl⟩
      · have hnot : user.id ∉ doc.members := fun h => hmem ((contains_eq_true_iff _ _).mpr h)
        cases saveThrows with
        | false =>
          have hout : joinGroup st user groupId (.returned (some doc)) false =
              { state := st, emits := []
                dbWrites := [.group { doc with members := doc.members ++ [user.id] } true]
                response :=
                  some ⟨200, .group { doc with members := doc.members ++ [user.id] }⟩ } := by
            simp only [joinGroup, if_neg hmem]
            rfl
          rw [hout]
          exact ⟨Or.inl rfl, rfl, rfl, rfl, Or.inr ⟨doc, rfl, hnot, rfl⟩⟩
        | true =>
          have hframe := joinInMemory_frame st user groupId
            [.group { doc with members := doc.members ++ [user.id] } false]
          have hout : joinGroup st user groupId (.returned (some doc)) true =
              joinInMemory st user groupId
                [.group { doc with members := doc.members ++ [user.id] } false] := by
            simp only [joinGroup, if_neg hmem]
            rfl
          rw [hout]
          exact ⟨hframe.1, hframe.2.1, hframe.2.2.1, hframe.2.2.2.1,
            Or.inr ⟨doc, rfl, hnot, hframe.2.2.2.2⟩⟩

/-- Witness for C16: a join of the id `nowhere`, which no group in memory has,
when the durable lookup throws. -/
theorem join_not_found_and_frame_witness :
    joinGroup sampleWorld1.server ⟨"u2", "bob"⟩ "nowhere" .threw false =
      { state := sampleWorld1.server, emits := [], dbWrites := []
        response := some ⟨404, .message "Group not found"⟩ } :=
  (join_not_found_and_frame sampleWorld1.server ⟨"u2", "bob"⟩ "nowhere" .threw false).1
    (by decide)

/-! ## Verification of the credential -/

/-- When `authenticateJWT` calls `next()`. -/
theorem authenticateJWT_next_iff (authorization : Option String)
    (jwtVerify : String → Option User) (user : User) :
    authenticateJWT authorization jwtVerify = .next user ↔
      ∃ token, bearerToken authorization = some token ∧ token ≠ "" ∧
        jwtVerify token = some user := by
  unfold authenticateJWT
  cases hb : bearerToken authorization with
  | none => simp
  | some token =>
    by_cases ht : token = ""
    · simp [ht]
    · cases hv : jwtVerify token with
      | none => simp [ht, hv]
      | some u => simp [ht, hv]

/-- When `io.use` accepts a handshake. -/
theorem ioUse_accepted_iff (handshake : Handshake) (jwtVerify : String → Option User)
    (user : User) :
    ioUse handshake jwtVerify = .accepted user ↔
      ∃ token, handshakeToken handshake = some token ∧ token ≠ "" ∧
        jwtVerify token = some user := by
  unfold ioUse
  cases hb : handshakeToken handshake with
  | none => simp
  | some token =>
    by_cases ht : token = ""
    · simp [ht]
    · cases hv : jwtVerify token with
      | none => simp [ht, hv]
      | some u => simp [ht, hv]

/-- C17: with the token missing `authenticateJWT` answers 401, with a token that
the check refuses it answers 403, and in both cases a protected route answers
that and nothing else happens: the handler does not run. The handshake
middleware refuses a missing or refused token with `Authentication error`, and
then the connection attempt leaves the state, so `connectedUsers`, as it was. The
handler, and the registration of the connection, run exactly when the check
returned an identity, and with that identity. -/
theorem verification_gates (st : ServerState) (jwtVerify : String → Option User) :
    (∀ authorization : Option String,
      (bearerToken authorization = none ∨ bearerToken authorization = some "") →
      authenticateJWT authorization jwtVerify = .answered ⟨401, .message "Unauthorized"⟩ ∧
      ∀ handler : User → Outcome,
        protectedRoute st authorization jwtVerify handler =
          { state := st, emits := [], dbWrites := []
            response := some ⟨401, .message "Unauthorized"⟩ }) ∧
    (∀ (authorization : Option String) (token : String),
      bearerToken authorization = some token → token ≠ "" → jwtVerify token = none →
      authenticateJWT authorization jwtVerify = .answered ⟨403, .message "Invalid token"⟩ ∧
      ∀ handler : User → Outcome,
        protectedRoute st authorization jwtVerify handler =
          { state := st, emits := [], dbWrites := []
            response := some ⟨403, .message "Invalid token"⟩ }) ∧
    (∀ (authorization : Option String) (user : User),
      (authenticateJWT authorization jwtVerify = .next user ↔
        ∃ token, bearerToken authorization = some token ∧ token ≠ "" ∧
          jwtVerify token = some user) ∧
      (authenticateJWT authorization jwtVerify = .next user →
        ∀ handler : User → Outcome,
          protectedRoute st authorization jwtVerify handler = handler user)) ∧
    (∀ handshake : Handshake,
      (handshakeToken handshake = none ∨ handshakeToken handshake = some "" ∨
        ∃ token, handshakeToken handshake = some token ∧ jwtVerify token = none) →
      ioUse handshake jwtVerify = .refused "Authentication error" ∧
      ∀ socketId : String,
        connect st socketId handshake jwtVerify =
          { state := st, emits := [], dbWrites := [], response := none }) ∧
    (∀ (handshake : Handshake) (user : User),
      (ioUse handshake jwtVerify = .accepted user ↔
        ∃ token, handshakeToken handshake = some token ∧ token ≠ "" ∧
          jwtVerify token = some user) ∧
      (ioUse handshake jwtVerify = .accepted user →
        ∀ socketId : String,
          connect st socketId handshake jwtVerify = onConnection st ⟨socketId, user⟩)) := by
  refine ⟨?_, ?_, ?_, ?_, ?_⟩
  · intro authorization hmissing
    have hauth : authenticateJWT authorization jwtVerify =
        .answered ⟨401, .message "Unauthorized"⟩ := by
      rcases hmissing with h | h <;> simp [authenticateJWT, h]
    refine ⟨hauth, ?_⟩
    intro handler
    simp only [protectedRoute, hauth]
  · intro authorization token htoken hne hverify
    have hauth : authenticateJWT authorization jwtVerify =
        .answered ⟨403, .message "Invalid token"⟩ := by
      simp [authenticateJWT, htoken, hne, hverify]
    refine ⟨hauth, ?_⟩
    intro handler
    simp only [protectedRoute, hauth]
  · intro authorization user
    refine ⟨authenticateJWT_next_iff authorization jwtVerify user, ?_⟩
    intro hnext handler
    simp only [protectedRoute, hnext]
  · intro handshake hbad
    have hrefused : ioUse handshake jwtVerify = .refused "Authentication error" := by
      rcases hbad with h | h | ⟨token, h, hverify⟩
      · simp [ioUse, h]
      · simp [ioUse, h]
      · by_cases ht : token = ""
        · simp [ioUse, h, ht]
        · simp [ioUse, h, ht, hverify]
    refine ⟨hrefused, ?_⟩
    intro socketId
    simp only [connect, hrefused]
  · intro handshake user
    refine ⟨ioUse_accepted_iff handshake jwtVerify user, ?_⟩
    intro haccepted socketId
    simp only [connect, haccepted]

/-- Witness for C17: a request without an authorization header on a protected
route is answered 401 and the handler, here the creation of a group, does not
run. -/
theorem verification_gates_witness :
    protectedRoute ServerState.initial none (fun _ => some ⟨"u1", "alice"⟩)
        (fun user => createGroup ServerState.initial user ⟨some "team", none⟩ 5 "d1" true) =
      { state := ServerState.initial, emits := [], dbWrites := []
        response := some ⟨401, .message "Unauthorized"⟩ } :=
  ((verification_gates ServerState.initial (fun _ => some ⟨"u1", "alice"⟩)).1 none
    (Or.inl rfl)).2 _

/-! ## Uniqueness of the users in memory -/

/-- C18 fails on the code. First run: `bob` registers while the durable lookup
and the save throw, and is stored in memory; `bob` registers again while the
lookup returns no user and the save throws: the request is answered 201, not
400, and `inMemoryUsers` holds the username `bob` twice. Second run: `alice` and
`bob` register at the same clock value while the durable store is down, and
both get the id `5`. -/
theorem register_stores_duplicates :
    (World.initial.run
        [.register ⟨"bob", some "pw"⟩ .threw "h1" 5 "d1" true,
         .register ⟨"bob", some "pw"⟩ (.returned none) "h2" 6 "d2" true]).map
        (fun w => w.server.inMemoryUsers) =
      some [⟨"5", "bob", "h1"⟩, ⟨"6", "bob", "h2"⟩] ∧
    (register (register ServerState.initial ⟨"bob", some "pw"⟩ .threw "h1" 5 "d1" true).state
        ⟨"bob", some "pw"⟩ (.returned none) "h2" 6 "d2" true).response =
      some ⟨201, .session ⟨⟨"6", "bob"⟩, "1h"⟩ "6" "bob"⟩ ∧
    (World.initial.run
        [.register ⟨"alice", some "pw"⟩ .threw "h1" 5 "d1" true,
         .register ⟨"bob", some "pw"⟩ .threw "h2" 5 "d2" true]).map
        (fun w => w.server.inMemoryUsers) =
      some [⟨"5", "alice", "h1"⟩, ⟨"5", "bob", "h2"⟩] :=
  ⟨by decide, by decide, by decide⟩

/-! ## Creation of a group -/

/-- C19: the creation of a group with a non-empty name answers 201 with a group
that has the given name and description and the caller as its only member, on
the durable path (the save goes through, nothing changes in memory) and on the
in-memory path (the save throws, the group is pushed on `inMemoryGroups`); with
the name missing or empty it answers 400 and changes nothing. -/
theorem create_group_result (st : ServerState) (user : User) (body : CreateGroupBody)
    (now : Nat) (documentId : String) :
    (∀ name, body.name = some name → name ≠ "" →
      (∃ group : Group, group.name = name ∧ group.description = body.description ∧
        group.members = [user.id] ∧
        (createGroup st user body now documentId false).response =
          some ⟨201, .group group⟩ ∧
        (createGroup st user body now documentId false).dbWrites = [.group group true] ∧
        (createGroup st user body now documentId false).state = st) ∧
      (∃ group : Group, group.name = name ∧ group.description = body.description ∧
        group.members = [user.id] ∧
        (createGroup st user body now documentId true).response =
          some ⟨201, .group group⟩ ∧
        (createGroup st user body now documentId true).state.inMemoryGroups =
          st.inMemoryGroups ++ [group])) ∧
    ((body.name = none ∨ body.name = some "") → ∀ saveThrows,
      createGroup st user body now documentId saveThrows =
        { state := st, emits := [], dbWrites := []
          response := some ⟨400, .message "Group name is required"⟩ }) := by
  constructor
  · intro name hname hne
    constructor
    · have hout : createGroup st user body now documentId false =
          { state := st, emits := []
            dbWrites := [.group ⟨documentId, name, body.description, [user.id], some now⟩ true]
            response := some ⟨201, .group
              ⟨documentId, name, body.description, [user.id], some now⟩⟩ } := by
        simp only [createGroup, hname, if_neg hne]
        rfl
      rw [hout]
      exact ⟨_, rfl, rfl, rfl, rfl, rfl, rfl⟩
    · rw [createGroup_save_throws st user body now documentId name hname hne]
      exact ⟨_, rfl, rfl, rfl, rfl, rfl⟩
  · intro hmissing saveThrows
    rcases hmissing with h | h
    · simp only [createGroup, h]
    · simp only [createGroup, h]
      rfl

/-- Witness for C19: `u1` creates the group `team` while the durable store is
down. -/
theorem create_group_result_witness :
    ∃ group : Group, group.name = "team" ∧ group.description = some "the team" ∧
      group.members = ["u1"] ∧
      (createGroup ServerState.initial ⟨"u1", "alice"⟩ ⟨some "team", some "the team"⟩ 5 "d1"
        true).response = some ⟨201, .group group⟩ ∧
      (createGroup ServerState.initial ⟨"u1", "alice"⟩ ⟨some "team", some "the team"⟩ 5 "d1"
        true).state.inMemoryGroups = ServerState.initial.inMemoryGroups ++ [group] :=
  ((create_group_result ServerState.initial ⟨"u1", "alice"⟩ ⟨some "team", some "the team"⟩
    5 "d1").1 "team" rfl (by decide)).2

/-! ## The sender of a message -/

theorem onPrivateMessage_senderIs (st : ServerState) (socket : Socket)
    (data : PrivateMessageData) (now : Nat) (saveThrows : Bool) :
    SenderIs socket.user st (onPrivateMessage st socket data now saveThrows) := by
  refine ⟨?_, ?_, ?_⟩
  · intro e he m hm
    rw [onPrivateMessage_emits] at he
    have hpayload : e.payload = .message (privateMessageOf socket data now) := by
      cases hget : st.connectedUsers.get data.recipientId with
      | none =>
        simp [hget] at he
        rw [he]
      | some r =>
        simp [hget] at he
        rcases he with he | he <;> rw [he]
    rw [hpayload] at hm
    cases hm
    exact ⟨rfl, rfl⟩
  · intro write hwrite doc ok hdoc
    have hw : (onPrivateMessage st socket data now saveThrows).dbWrites =
        [.message ⟨socket.user.id, data.recipientId, data.content, false⟩ (!saveThrows)] := rfl
    rw [hw, List.mem_singleton] at hwrite
    rw [hwrite] at hdoc
    cases hdoc
    rfl
  · intro m hm
    cases saveThrows with
    | false => exact Or.inl hm
    | true =>
      have hs : (onPrivateMessage st socket data now true).state.inMemoryMessages =
          st.inMemoryMessages ++ [privateMessageOf socket data now] := rfl
      rw [hs, List.mem_append, List.mem_singleton] at hm
      rcases hm with hm | hm
      · exact Or.inl hm
      · rw [hm]
        exact Or.inr ⟨rfl, rfl⟩

theorem onGroupMessage_senderIs (st : ServerState) (socket : Socket)
    (data : GroupMessageData) (now : Nat) (found : DbResult (Option Group))
    (saveThrows : Bool) :
    SenderIs socket.user st (onGroupMessage st socket data now found saveThrows) := by
  cases hlook : lookupGroup st data.groupId found with
  | none =>
    rw [onGroupMessage_no_group st socket data now found saveThrows hlook]
    refine ⟨?_, ?_, fun m hm => Or.inl hm⟩
    · intro e he m hm
      simp only [List.mem_singleton] at he
      rw [he] at hm
      cases hm
    · intro write hwrite
      simp at hwrite
  | some group =>
    by_cases hmem : socket.user.id ∈ group.members
    · rw [onGroupMessage_member st socket data now found saveThrows group hlook hmem]
      refine ⟨?_, ?_, ?_⟩
      · intro e he m hm
        have hpayload := (fanOut_event _ _ _ e he).2.1
        rw [hpayload] at hm
        cases hm
        exact ⟨rfl, rfl⟩
      · intro write hwrite doc ok hdoc
        simp only [List.mem_singleton] at hwrite
        rw [hwrite] at hdoc
        cases hdoc
        rfl
      · intro m hm
        cases saveThrows with
        | false => exact Or.inl hm
        | true =>
          simp only [if_true, List.mem_append, List.mem_singleton] at hm
          rcases hm with hm | hm
          · exact Or.inl hm
          · rw [hm]
            exact Or.inr ⟨rfl, rfl⟩
    · rw [onGroupMessage_not_member st socket data now found saveThrows group hlook hmem]
      refine ⟨?_, ?_, fun m hm => Or.inl hm⟩
      · intro e he m hm
        simp only [List.mem_singleton] at he
        rw [he] at hm
        cases hm
      · intro write hwrite
        simp at hwrite

/-- C21: on a socket whose user the handshake middleware accepted, which is the
identity that the token check returned, every message that the `private message`
and the `group message` handlers save or emit has the id and the username of
that identity as its sender; and two arriving objects that agree on recipientId
(or groupId) and content, whatever their other fields are, give the same
outcome: the same state, emits and durable writes. -/
theorem sender_from_handshake (st : ServerState) (socket : Socket) (handshake : Handshake)
    (jwtVerify : String → Option User)
    (hverified : ioUse handshake jwtVerify = .accepted socket.user)
    (now : Nat) (found : DbResult (Option Group)) (saveThrows : Bool) :
    (∃ token, handshakeToken handshake = some token ∧ token ≠ "" ∧
      jwtVerify token = some socket.user) ∧
    (∀ a : PrivateMessageWire,
      SenderIs socket.user st (receivePrivateMessage st socket a now saveThrows)) ∧
    (∀ a : GroupMessageWire,
      SenderIs socket.user st (receiveGroupMessage st socket a now found saveThrows)) ∧
    (∀ a b : PrivateMessageWire, a.recipientId = b.recipientId → a.content = b.content →
      receivePrivateMessage st socket a now saveThrows =
        receivePrivateMessage st socket b now saveThrows) ∧
    (∀ a b : GroupMessageWire, a.groupId = b.groupId → a.content = b.content →
      receiveGroupMessage st socket a now found saveThrows =
        receiveGroupMessage st socket b now found saveThrows) := by
  refine ⟨(ioUse_accepted_iff handshake jwtVerify socket.user).mp hverified, ?_, ?_, ?_, ?_⟩
  · intro a
    exact onPrivateMessage_senderIs st socket a.destructure now saveThrows
  · intro a
    exact onGroupMessage_senderIs st socket a.destructure now found saveThrows
  · intro a b hr hc
    simp only [receivePrivateMessage, PrivateMessageWire.destructure, hr, hc]
  · intro a b hg hc
    simp only [receiveGroupMessage, GroupMessageWire.destructure, hg, hc]

/-- Witness for C21: `u1`, accepted with the token `tok`, sends a private message
once as it is and once with a forged `senderId` field. -/
theorem sender_from_handshake_witness :
    receivePrivateMessage sampleWorld2.server sampleSocket1
        ⟨"u2", "hi", []⟩ 7 true =
      receivePrivateMessage sampleWorld2.server sampleSocket1
        ⟨"u2", "hi", [("senderId", "u2"), ("senderUsername", "bob")]⟩ 7 true :=
  (sender_from_handshake sampleWorld2.server sampleSocket1 ⟨some "tok", none⟩
    (fun token => if token = "tok" then some ⟨"u1", "alice"⟩ else none) (by decide)
    7 .threw true).2.2.2.1 ⟨"u2", "hi", []⟩
    ⟨"u2", "hi", [("senderId", "u2"), ("senderUsername", "bob")]⟩ rfl rfl

/-! ## The send handler of the client -/

/-- The trimmed draft is empty exactly when every character of the draft is one
that `trim` removes. -/
theorem jsTrim_eq_empty_iff (s : String) :
    jsTrim s = "" ↔ ∀ ch ∈ s.data, isTrimmed ch = true := by
  have hmk : ∀ l : List Char, String.mk l = "" ↔ l = [] := by
    intro l
    constructor
    · intro h
      have := congrArg String.data h
      simpa using this
    · intro h
      rw [h]
  unfold jsTrim
  rw [hmk, List.reverse_eq_nil_iff, List.dropWhile_eq_nil_iff]
  constructor
  · intro h
    cases hd : s.data.dropWhile isTrimmed with
    | nil => exact List.dropWhile_eq_nil_iff.mp hd
    | cons a rest =>
      have hhead := List.head?_dropWhile_not isTrimmed s.data
      rw [hd] at hhead h
      have ha : isTrimmed a = true := h a (by simp)
      simp [ha] at hhead
  · intro h x hx
    rw [List.dropWhile_eq_nil_iff.mpr h] at hx
    simp at hx

/-- The emits of the send handler by the active tab and the selection. -/
theorem sendEmits_cases (c : ChatState) :
    (∀ user, c.tabValue = 0 → c.selectedUser = some user →
      sendEmits c = [⟨"private message", .toUser user.idOrMongoId c.newMessage⟩]) ∧
    (∀ group, c.tabValue = 1 → c.selectedGroup = some group →
      sendEmits c = [⟨"group message", .toGroup group.id c.newMessage⟩]) ∧
    ((c.tabValue ≠ 0 ∨ c.selectedUser = none) → (c.tabValue ≠ 1 ∨ c.selectedGroup = none) →
      sendEmits c = []) := by
  refine ⟨?_, ?_, ?_⟩
  · intro user htab huser
    simp [sendEmits, htab, huser]
  · intro group htab hgroup
    simp [sendEmits, htab, hgroup]
  · intro h0 h1
    unfold sendEmits
    rcases h0 with h0 | h0 <;> rcases h1 with h1 | h1 <;> simp [h0, h1]

/-- C22: with a draft that is empty or made of white space only,
`handleSendMessage` emits nothing (and leaves the state as it is). Otherwise it
clears the draft and emits: one `private message` with the id of the selected
user and the draft as it is when the tab is 0 and a user is selected; one
`group message` with the id of the selected group and the draft as it is when
the tab is 1 and a group is selected; nothing when neither is the case. -/
theorem send_message_behaviour (c : ChatState) :
    ((∀ ch ∈ c.newMessage.data, isTrimmed ch = true) → handleSendMessage c = ([], c)) ∧
    ((∃ ch ∈ c.newMessage.data, isTrimmed ch = false) →
      (handleSendMessage c).2 = { c with newMessage := "" } ∧
      (∀ user, c.tabValue = 0 → c.selectedUser = some user →
        (handleSendMessage c).1 =
          [⟨"private message", .toUser user.idOrMongoId c.newMessage⟩] ∧
        (∀ id, user.id = some id → id ≠ "" → user.idOrMongoId = some id)) ∧
      (∀ group, c.tabValue = 1 → c.selectedGroup = some group →
        (handleSendMessage c).1 = [⟨"group message", .toGroup group.id c.newMessage⟩]) ∧
      ((c.tabValue ≠ 0 ∨ c.selectedUser = none) →
        (c.tabValue ≠ 1 ∨ c.selectedGroup = none) → (handleSendMessage c).1 = [])) := by
  constructor
  · intro hall
    have htrim : jsTrim c.newMessage = "" := (jsTrim_eq_empty_iff _).mpr hall
    simp only [handleSendMessage, if_pos htrim]
  · rintro ⟨ch, hch, hnot⟩
    have htrim : ¬ jsTrim c.newMessage = "" := by
      intro h
      have := (jsTrim_eq_empty_iff _).mp h ch hch
      rw [hnot] at this
      exact absurd this (by decide)
    have hout : handleSendMessage c = (sendEmits c, { c with newMessage := "" }) := by
      simp only [handleSendMessage, if_neg htrim]
    rw [hout]
    obtain ⟨huser, hgroup, hnone⟩ := sendEmits_cases c
    refine ⟨rfl, ?_, hgroup, hnone⟩
    intro user htab hsel
    refine ⟨huser user htab hsel, ?_⟩
    intro id hid hne
    simp [ClientUser.idOrMongoId, hid, hne]

/-- Witness for C22: the draft ` hi ` with the user `u2` selected on tab 0. -/
theorem send_message_behaviour_witness :
    (handleSendMessage ⟨" hi ", 0, some ⟨some "u2", none⟩, none⟩).1 =
      [⟨"private message", .toUser (ClientUser.idOrMongoId ⟨some "u2", none⟩) " hi "⟩] :=
  (((send_message_behaviour ⟨" hi ", 0, some ⟨some "u2", none⟩, none⟩).2
    ⟨'h', by decide, by decide⟩).2.1 ⟨some "u2", none⟩ rfl rfl).1

end RTChat
